import Mathlib

/-!
Verification development for the goTrading repository.

The Go source is shallowly embedded over exact rational arithmetic (`ℚ`):
`float64` values become `ℚ`, with Lean's total division (`x / 0 = 0`)
standing in for IEEE division wherever the source guards the denominator.
`math.Sqrt` is modelled by `sqrtF` below; every theorem in this file relies
only on its sign behaviour (`sqrtF 0 = 0`, `sqrtF q > 0` for `q > 0`),
which agrees with `math.Sqrt` on floats.

The technical indicators (`techan` library calls in `analyze.go`,
`backtest.go`, `ml_strategy.go`) are embedded after the semantics of the
sdcoffey/techan indicators the source instantiates: a windowed indicator
returns 0 before index `window - 1`, the simple moving average at index
`window - 1`, and the exponential recursion afterwards.
-/

namespace GoTrading

/-- Model of `math.Sqrt` on exact rationals: an exact-rational square-root
approximation.  The proofs below use only that it is zero at zero and
positive on positives, which matches `math.Sqrt`. -/
def sqrtF (q : ℚ) : ℚ :=
  if q ≤ 0 then 0 else (Int.sqrt q.num : ℚ) / (Nat.sqrt q.den : ℚ)

/-- One OHLCV price bar (`techan.Candle` as built in `backtest.go`):
`periodStart` is the candle's opening timestamp (Unix milliseconds). -/
structure Candle where
  periodStart : ℤ
  openPrice : ℚ
  maxPrice : ℚ
  minPrice : ℚ
  closePrice : ℚ
  volume : ℚ
deriving DecidableEq, Repr

/-- Default candle used for out-of-range reads (never reached by the Go
code, which only indexes candles that exist). -/
def cdef : Candle := ⟨0, 0, 0, 0, 0, 0⟩

/-- `techan.NewClosePriceIndicator`: close price of the candle at an index. -/
def closeOf (ts : List Candle) (i : ℕ) : ℚ := (ts.getD i cdef).closePrice

/-- `techan.NewHighPriceIndicator`. -/
def highOf (ts : List Candle) (i : ℕ) : ℚ := (ts.getD i cdef).maxPrice

/-- `techan.NewLowPriceIndicator`. -/
def lowOf (ts : List Candle) (i : ℕ) : ℚ := (ts.getD i cdef).minPrice

/-- `techan.NewVolumeIndicator`. -/
def volOf (ts : List Candle) (i : ℕ) : ℚ := (ts.getD i cdef).volume

/-- `techan.NewSimpleMovingAverage` over an abstract indicator `v`:
zero before `w - 1` candles exist, else the mean of the trailing window. -/
def smaF (w : ℕ) (v : ℕ → ℚ) (i : ℕ) : ℚ :=
  if i + 1 < w then 0
  else ((List.range w).map (fun j => v (i - j))).sum / (w : ℚ)

/-- `techan.NewEMAIndicator` over an abstract indicator: zero before index
`w - 1`, the simple moving average at index `w - 1`, and
`α·v i + (1 - α)·ema (i-1)` with `α = 2/(w+1)` afterwards. -/
def emaF (w : ℕ) (v : ℕ → ℚ) : ℕ → ℚ
  | 0 => if 1 < w then 0 else smaF w v 0
  | i + 1 =>
    if i + 2 < w then 0
    else if i + 2 = w then smaF w v (i + 1)
    else (2 / ((w : ℚ) + 1)) * v (i + 1) + (1 - 2 / ((w : ℚ) + 1)) * emaF w v i

/-- `techan.NewMMAIndicator` (modified moving average, used inside the RSI):
like the EMA but with `α = 1/w`. -/
def mmaF (w : ℕ) (v : ℕ → ℚ) : ℕ → ℚ
  | 0 => if 1 < w then 0 else smaF w v 0
  | i + 1 =>
    if i + 2 < w then 0
    else if i + 2 = w then smaF w v (i + 1)
    else (1 / (w : ℚ)) * v (i + 1) + (1 - 1 / (w : ℚ)) * mmaF w v i

/-- `techan.NewGainIndicator`: positive part of the one-step difference. -/
def gainF (v : ℕ → ℚ) : ℕ → ℚ
  | 0 => 0
  | i + 1 => max (v (i + 1) - v i) 0

/-- `techan.NewLossIndicator`: magnitude of the negative part of the
one-step difference. -/
def lossF (v : ℕ → ℚ) : ℕ → ℚ
  | 0 => 0
  | i + 1 => max (v i - v (i + 1)) 0

/-- Saturating value `techan` returns for the relative strength when the
average loss is zero. -/
def rsSentinel : ℚ := 9223372036854775807

/-- `techan.NewRelativeStrengthIndicator`: average gain over average loss
(modified moving averages), saturating when the average loss is zero. -/
def rsF (w : ℕ) (v : ℕ → ℚ) (i : ℕ) : ℚ :=
  if i = 0 then 0
  else
    let avgGain := mmaF w (gainF v) i
    let avgLoss := mmaF w (lossF v) i
    if avgLoss = 0 then rsSentinel else avgGain / avgLoss

/-- `techan.NewRelativeStrengthIndexIndicator`: `100 - 100/(1 + RS)`. -/
def rsiF (w : ℕ) (v : ℕ → ℚ) (i : ℕ) : ℚ :=
  100 - 100 / (1 + rsF w v i)

/-- `techan.NewMACDIndicator`: difference of a short and a long EMA. -/
def macdF (short long : ℕ) (v : ℕ → ℚ) (i : ℕ) : ℚ :=
  emaF short v i - emaF long v i

/-- The MACD signal line: an EMA of the MACD itself
(`techan.NewEMAIndicator(macd, w)`). -/
def macdSignalLineF (short long w : ℕ) (v : ℕ → ℚ) (i : ℕ) : ℚ :=
  emaF w (macdF short long v) i

/-- `techan.NewMACDHistogramIndicator`: the MACD minus its signal line. -/
def macdHistF (short long w : ℕ) (v : ℕ → ℚ) (i : ℕ) : ℚ :=
  macdF short long v i - macdSignalLineF short long w v i

/-- `analyzeClassic` (src/analyze.go): rule-based BUY/SELL/HOLD signal from
the EMA 9/21 cross, RSI 14 and MACD(12,26) compared against the value of
`techan.NewMACDHistogramIndicator(macd, 9)`. -/
def analyzeClassic (symbol : String) (ts : List Candle) : String :=
  let v := closeOf ts
  let lastIdx := ts.length - 1
  if lastIdx < 26 then "WAIT"
  else
    let emaShortNow := emaF 9 v lastIdx
    let emaLongNow := emaF 21 v lastIdx
    let emaShortPrev := emaF 9 v (lastIdx - 1)
    let emaLongPrev := emaF 21 v (lastIdx - 1)
    let rsiVal := rsiF 14 v lastIdx
    let macdVal := macdF 12 26 v lastIdx
    let macdSignalVal := macdHistF 12 26 9 v lastIdx
    if emaLongNow < emaShortNow ∧ emaShortPrev ≤ emaLongPrev ∧
        rsiVal < 70 ∧ macdSignalVal < macdVal then "BUY"
    else if emaShortNow < emaLongNow ∧ emaLongPrev ≤ emaShortPrev ∧
        30 < rsiVal ∧ macdVal < macdSignalVal then "SELL"
    else "HOLD"

/-- `analyzeML` (src/analyze.go): placeholder for model-based analysis;
returns HOLD unconditionally, without consulting any predictor. -/
def analyzeML (symbol : String) (ts : List Candle) : String := "HOLD"

/-- `analyze` (src/analyze.go): dispatches on the `UseMLAnalyze` flag. -/
def analyze (useMLAnalyze : Bool) (symbol : String) (ts : List Candle) : String :=
  if useMLAnalyze then analyzeML symbol ts else analyzeClassic symbol ts

/-- The signal the backtest loop obtains at step `i`: `RunBacktest`
(src/backtest.go lines 236-244) builds a sub-series of the candles at
indices `0..i` and hands it to `analyze`. -/
def signalAt (useMLAnalyze : Bool) (symbol : String) (candles : List Candle)
    (i : ℕ) : String :=
  analyze useMLAnalyze symbol (candles.take (i + 1))

/-! ### Causality of the indicator layer

Two indicator inputs that agree on all indices up to `i` produce the same
value at `i`; hence appending candles after index `i` never changes an
indicator value, or the signal, at `i`. -/

/-- `v` and `w` agree at every index up to and including `i`. -/
def AgreeUpTo (i : ℕ) (v w : ℕ → ℚ) : Prop := ∀ j, j ≤ i → v j = w j

/-- A flat candle (all four prices equal, zero volume), as the backtest
builds candles whose volume is fixed to zero. -/
def constCandle (p : ℚ) : Candle := ⟨0, p, p, p, p, 0⟩

/-- A series of `n` identical flat candles. -/
def constSeries (p : ℚ) (n : ℕ) : List Candle := List.replicate n (constCandle p)

/-! ### C5: the rule-based strategy versus the spec's wording -/

/-- Modelled from the spec (§4.4 / C5 wording): the rule-based strategy
with the MACD compared against its *signal line* (the EMA-9 of the MACD),
which is what "MACD(12,26) > its signal line" denotes. -/
def analyzeClassicSpec (symbol : String) (ts : List Candle) : String :=
  let v := closeOf ts
  let lastIdx := ts.length - 1
  if ts.length < 27 then "WAIT"
  else
    let signalLine := macdSignalLineF 12 26 9 v lastIdx
    if emaF 21 v lastIdx < emaF 9 v lastIdx ∧
        emaF 9 v (lastIdx - 1) ≤ emaF 21 v (lastIdx - 1) ∧
        rsiF 14 v lastIdx < 70 ∧ signalLine < macdF 12 26 v lastIdx then "BUY"
    else if emaF 9 v lastIdx < emaF 21 v lastIdx ∧
        emaF 21 v (lastIdx - 1) ≤ emaF 9 v (lastIdx - 1) ∧
        30 < rsiF 14 v lastIdx ∧ macdF 12 26 v lastIdx < signalLine then "SELL"
    else "HOLD"

/-- Modelled from the spec, amended as the code forces: the third BUY
condition is `MACD > histogram`, which is equivalent to the signal line
(EMA-9 of the MACD) being positive; dually for SELL. -/
def analyzeClassicSpecAmended (symbol : String) (ts : List Candle) : String :=
  let v := closeOf ts
  let lastIdx := ts.length - 1
  if ts.length < 27 then "WAIT"
  else
    let signalLine := macdSignalLineF 12 26 9 v lastIdx
    if emaF 21 v lastIdx < emaF 9 v lastIdx ∧
        emaF 9 v (lastIdx - 1) ≤ emaF 21 v (lastIdx - 1) ∧
        rsiF 14 v lastIdx < 70 ∧ 0 < signalLine then "BUY"
    else if emaF 9 v lastIdx < emaF 21 v lastIdx ∧
        emaF 21 v (lastIdx - 1) ≤ emaF 9 v (lastIdx - 1) ∧
        30 < rsiF 14 v lastIdx ∧ signalLine < 0 then "SELL"
    else "HOLD"

/-- Closing prices of the 27-bar counterexample series for C5: constant at
100, one dip to 92 at index 22, and a final bar at 102. -/
def c5v (i : ℕ) : ℚ :=
  if i = 22 then 92 else if i = 26 then 102 else if i ≤ 26 then 100 else 0

/-- The 27-bar counterexample series for C5 (flat candles at `c5v`). -/
def c5Bars : List Candle :=
  (List.range 27).map (fun i => ⟨0, c5v i, c5v i, c5v i, c5v i, 0⟩)

/-! ### The backtest engine (src/backtest.go)

Go maps (`map[string]float64`) are embedded as association lists with
no duplicate keys; reading a missing key yields the zero value, as in Go. -/

/-- Read a key from an association list (`m[k]` with the `ok` flag). -/
def lookupA (m : List (String × ℚ)) (k : String) : Option ℚ :=
  (m.find? (fun p => p.1 == k)).map (fun p => p.2)

/-- Read a key from an association list, defaulting to 0 (`m[k]` in Go). -/
def getA (m : List (String × ℚ)) (k : String) : ℚ := (lookupA m k).getD 0

/-- Write a key in an association list (`m[k] = x` in Go). -/
def setA : List (String × ℚ) → String → ℚ → List (String × ℚ)
  | [], k, x => [(k, x)]
  | (k', y) :: rest, k, x =>
    if k' = k then (k, x) :: rest else (k', y) :: setA rest k x

/-- Remove a key from an association list (`delete(m, k)` in Go). -/
def eraseA (m : List (String × ℚ)) (k : String) : List (String × ℚ) :=
  m.filter (fun p => !(p.1 == k))

/-- `BacktestConfig` (the fields the simulation core reads; the data-fetch
fields `StartDate`/`EndDate`/`Interval`/`DataLimit` only parametrise the
external kline download and are omitted). -/
structure BacktestConfig where
  symbol : String
  initialBalance : ℚ
  transactionFee : ℚ
deriving DecidableEq, Repr

/-- `Trade`: a single trade execution record. -/
structure Trade where
  symbol : String
  type : String
  price : ℚ
  quantity : ℚ
  timestamp : ℤ
  fee : ℚ
  balance : ℚ
  totalValue : ℚ
deriving DecidableEq, Repr

/-- `Portfolio`: the current portfolio state. -/
structure Portfolio where
  cash : ℚ
  holdings : List (String × ℚ)
  lastPrices : List (String × ℚ)
deriving DecidableEq, Repr

/-- `BacktestEngine` (the mutable simulation state; the `startTime` and
`endTime` bookkeeping fields only feed the report's duration). -/
structure BacktestEngine where
  config : BacktestConfig
  portfolio : Portfolio
  trades : List Trade
deriving DecidableEq, Repr

/-- `NewBacktestEngine`. -/
def NewBacktestEngine (config : BacktestConfig) : BacktestEngine :=
  { config := config
    portfolio := { cash := config.initialBalance, holdings := [], lastPrices := [] }
    trades := [] }

/-- `GetPortfolioValue`: cash plus each holding valued at its last price
(skipped when no last price is recorded, as in the Go range loop). -/
def BacktestEngine.GetPortfolioValue (be : BacktestEngine) : ℚ :=
  be.portfolio.cash +
    (be.portfolio.holdings.map (fun p =>
      match lookupA be.portfolio.lastPrices p.1 with
      | some price => p.2 * price
      | none => 0)).sum

/-- `ExecuteTrade`: executes a buy or sell trade, returning the Go
function's boolean result together with the engine state after the call.
Go's two-valued map read `quantity, exists := holdings[symbol]` with the
rejection test `!exists || quantity <= 0` is modelled by the defaulted
read `getA`: the two conditions agree in every case (a missing key reads
as 0). -/
def BacktestEngine.ExecuteTrade (be : BacktestEngine) (symbol tradeType : String)
    (price : ℚ) (timestamp : ℤ) : Bool × BacktestEngine :=
  let fee := price * be.config.transactionFee
  if tradeType = "BUY" then
    let availableCash := be.portfolio.cash
    let costPerUnit := price + fee
    let maxQuantity := availableCash / costPerUnit
    if maxQuantity ≤ 0 then (false, be)
    else
      let totalCost := maxQuantity * price
      let totalFee := maxQuantity * fee
      let portfolio : Portfolio :=
        { cash := be.portfolio.cash - (totalCost + totalFee)
          holdings := setA be.portfolio.holdings symbol
            (getA be.portfolio.holdings symbol + maxQuantity)
          lastPrices := setA be.portfolio.lastPrices symbol price }
      let be' : BacktestEngine := { be with portfolio := portfolio }
      let trade : Trade :=
        { symbol := symbol, type := tradeType, price := price
          quantity := maxQuantity, timestamp := timestamp, fee := totalFee
          balance := portfolio.cash, totalValue := be'.GetPortfolioValue }
      (true, { be' with trades := be.trades ++ [trade] })
  else if tradeType = "SELL" then
    let quantity := getA be.portfolio.holdings symbol
    if quantity ≤ 0 then (false, be)
    else
        let totalRevenue := quantity * price
        let totalFee := quantity * fee
        let netRevenue := totalRevenue - totalFee
        let portfolio : Portfolio :=
          { cash := be.portfolio.cash + netRevenue
            holdings := eraseA be.portfolio.holdings symbol
            lastPrices := setA be.portfolio.lastPrices symbol price }
        let be' : BacktestEngine := { be with portfolio := portfolio }
        let trade : Trade :=
          { symbol := symbol, type := tradeType, price := price
            quantity := quantity, timestamp := timestamp, fee := totalFee
            balance := portfolio.cash, totalValue := be'.GetPortfolioValue }
        (true, { be' with trades := be.trades ++ [trade] })
  else (false, be)

/-- `calculateMean` (src/backtest.go). -/
def calculateMean (values : List ℚ) : ℚ :=
  if values.length = 0 then 0 else values.sum / (values.length : ℚ)

/-- `calculateStdDev` (src/backtest.go): sample standard deviation with
an `n - 1` denominator, 0 when fewer than two values exist. -/
def calculateStdDev (values : List ℚ) (mean : ℚ) : ℚ :=
  if values.length ≤ 1 then 0
  else sqrtF ((values.map (fun v => (v - mean) * (v - mean))).sum /
    ((values.length - 1 : ℕ) : ℚ))

/-- The Sharpe-ratio computation of `RunBacktest` (src/backtest.go lines
329-337), exactly as written: `(mean * √252) / (stdDev * √252)`. -/
def sharpeRatioOf (dailyReturns : List ℚ) : ℚ :=
  if 1 < dailyReturns.length then
    let mean := calculateMean dailyReturns
    let stdDev := calculateStdDev dailyReturns mean
    if 0 < stdDev then (mean * sqrtF 252) / (stdDev * sqrtF 252) else 0
  else 0

/-- Modelled from the spec (§4.6 / C2 wording): the annualized Sharpe
ratio `mean/stdDev · √252`, 0 when the standard deviation is 0 or fewer
than two returns exist. -/
def sharpeRatioSpec (dailyReturns : List ℚ) : ℚ :=
  if 1 < dailyReturns.length then
    let mean := calculateMean dailyReturns
    let stdDev := calculateStdDev dailyReturns mean
    if 0 < stdDev then mean / stdDev * sqrtF 252 else 0
  else 0

/-- The running state of the `RunBacktest` simulation loop. -/
structure LoopState where
  engine : BacktestEngine
  equityCurve : List ℚ
  dailyReturns : List ℚ
  maxValue : ℚ
  maxDrawdown : ℚ
deriving DecidableEq, Repr

/-- The engine after the per-step last-price update
(src/backtest.go line 234). -/
def stepPriced (candles : List Candle) (st : LoopState) (i : ℕ) : BacktestEngine :=
  let newLastPrices :=
    setA st.engine.portfolio.lastPrices st.engine.config.symbol (closeOf candles i)
  { st.engine with portfolio := { st.engine.portfolio with lastPrices := newLastPrices } }

/-- The engine after the signal-dispatched trade of one loop iteration
(src/backtest.go lines 243-252). -/
def stepEngine (useMLAnalyze : Bool) (candles : List Candle)
    (st : LoopState) (i : ℕ) : BacktestEngine :=
  let be₀ := stepPriced candles st i
  let signal := signalAt useMLAnalyze be₀.config.symbol candles i
  let timestamp := (candles.getD i cdef).periodStart
  if signal = "BUY" then
    (be₀.ExecuteTrade be₀.config.symbol "BUY" (closeOf candles i) timestamp).2
  else if signal = "SELL" then
    (be₀.ExecuteTrade be₀.config.symbol "SELL" (closeOf candles i) timestamp).2
  else be₀

/-- One iteration of the `RunBacktest` loop (src/backtest.go lines
231-276) at index `i`: update the last price, obtain the signal on the
causal prefix `0..i`, trade on BUY/SELL, and record equity, step return,
and drawdown. -/
def RunBacktestStep (useMLAnalyze : Bool) (candles : List Candle)
    (st : LoopState) (i : ℕ) : LoopState :=
  let be₁ := stepEngine useMLAnalyze candles st i
  let currentValue := be₁.GetPortfolioValue
  let equityCurve := st.equityCurve ++ [currentValue]
  let dailyReturns :=
    if 1 < equityCurve.length then
      let prevValue := equityCurve.getD (equityCurve.length - 2) 0
      if 0 < prevValue then
        st.dailyReturns ++ [(currentValue - prevValue) / prevValue]
      else st.dailyReturns
    else st.dailyReturns
  let maxValue := if st.maxValue < currentValue then currentValue else st.maxValue
  let drawdown := maxValue - currentValue
  let maxDrawdown := if st.maxDrawdown < drawdown then drawdown else st.maxDrawdown
  { engine := be₁, equityCurve := equityCurve, dailyReturns := dailyReturns
    maxValue := maxValue, maxDrawdown := maxDrawdown }

/-- `BacktestResult` (the aggregate snapshot built at the end of
`RunBacktest`; the wall-clock `Duration` field is omitted). -/
structure BacktestResult where
  symbol : String
  initialBalance : ℚ
  finalBalance : ℚ
  finalValue : ℚ
  totalReturn : ℚ
  totalReturnPct : ℚ
  maxDrawdown : ℚ
  maxDrawdownPct : ℚ
  winRate : ℚ
  totalTrades : ℕ
  winningTrades : ℕ
  losingTrades : ℕ
  averageWin : ℚ
  averageLoss : ℚ
  sharpeRatio : ℚ
  trades : List Trade
  dailyReturns : List ℚ
  equityCurve : List ℚ
  buyAndHoldReturn : ℚ
  buyAndHoldReturnPct : ℚ
deriving DecidableEq, Repr

/-- The LIFO pairing of SELL trades with the most recent unmatched BUY
(src/backtest.go lines 296-315): returns the winning count, losing count,
total wins and total losses. -/
def tradeStats (trades : List Trade) : ℕ × ℕ × ℚ × ℚ :=
  let final := trades.foldl
    (fun (acc : List Trade × ℕ × ℕ × ℚ × ℚ) trade =>
      let (buyTrades, winning, losing, totalWins, totalLosses) := acc
      if trade.type = "BUY" then
        (buyTrades ++ [trade], winning, losing, totalWins, totalLosses)
      else if trade.type = "SELL" ∧ buyTrades ≠ [] then
        let buyTrade := buyTrades.getLastD ⟨"", "", 0, 0, 0, 0, 0, 0⟩
        let rest := buyTrades.dropLast
        let pnl := (trade.price - buyTrade.price) * trade.quantity - trade.fee - buyTrade.fee
        if 0 < pnl then (rest, winning + 1, losing, totalWins + pnl, totalLosses)
        else (rest, winning, losing + 1, totalWins, totalLosses + |pnl|)
      else acc)
    ([], 0, 0, 0, 0)
  final.2

/-- The initial loop state of `RunBacktest`: a fresh engine, empty curves
and the running peak seeded with the initial balance. -/
def RunBacktestInit (config : BacktestConfig) : LoopState :=
  { engine := NewBacktestEngine config, equityCurve := [], dailyReturns := []
    maxValue := config.initialBalance, maxDrawdown := 0 }

/-- The core of `RunBacktest` (src/backtest.go lines 226-362), after the
external kline fetch has produced the candle list: simulate from warm-up
index 26 to the last index and assemble the result. -/
def RunBacktest (useMLAnalyze : Bool) (config : BacktestConfig)
    (candles : List Candle) : BacktestResult :=
  let prices := candles.map (fun c => c.closePrice)
  let final := (List.range' 26 (candles.length - 26)).foldl
    (RunBacktestStep useMLAnalyze candles) (RunBacktestInit config)
  let finalValue := final.engine.GetPortfolioValue
  let totalReturn := finalValue - config.initialBalance
  let totalReturnPct := totalReturn / config.initialBalance * 100
  let maxDrawdownPct := final.maxDrawdown / final.maxValue * 100
  let firstPrice := prices.getD 0 0
  let lastPrice := prices.getD (prices.length - 1) 0
  let buyAndHoldReturn := (lastPrice - firstPrice) / firstPrice * config.initialBalance
  let buyAndHoldReturnPct := (lastPrice - firstPrice) / firstPrice * 100
  let stats := tradeStats final.engine.trades
  let winningTrades := stats.1
  let losingTrades := stats.2.1
  let totalWins := stats.2.2.1
  let totalLosses := stats.2.2.2
  let totalCompletedTrades := winningTrades + losingTrades
  let winRate :=
    if 0 < totalCompletedTrades then
      ((winningTrades : ℚ) / (totalCompletedTrades : ℚ)) * 100 else 0
  let avgWin := if 0 < winningTrades then totalWins / (winningTrades : ℚ) else 0
  let avgLoss := if 0 < losingTrades then totalLosses / (losingTrades : ℚ) else 0
  { symbol := config.symbol
    initialBalance := config.initialBalance
    finalBalance := final.engine.portfolio.cash
    finalValue := finalValue
    totalReturn := totalReturn
    totalReturnPct := totalReturnPct
    maxDrawdown := final.maxDrawdown
    maxDrawdownPct := maxDrawdownPct
    winRate := winRate
    totalTrades := final.engine.trades.length
    winningTrades := winningTrades
    losingTrades := losingTrades
    averageWin := avgWin
    averageLoss := avgLoss
    sharpeRatio := sharpeRatioOf final.dailyReturns
    trades := final.engine.trades
    dailyReturns := final.dailyReturns
    equityCurve := final.equityCurve
    buyAndHoldReturn := buyAndHoldReturn
    buyAndHoldReturnPct := buyAndHoldReturnPct }

/-- The reachability invariant of the backtest loop: cash never goes
negative, a live position forces the cash to be exactly zero (every BUY is
all-in), and no symbol other than the configured one is ever held. -/
def EngineInv (sym : String) (p : Portfolio) : Prop :=
  0 ≤ p.cash ∧ (0 < getA p.holdings sym → p.cash = 0) ∧
    ∀ s, ¬ s = sym → getA p.holdings s = 0

/-- A concrete engine for the witnesses: 100 in cash, 0.1% fee. -/
def engEx : BacktestEngine := NewBacktestEngine ⟨"BTCUSDT", 100, 1/100⟩

/-! ### The trainable predictor (src/ml_strategy.go)

`float64` is again embedded as `ℚ`.  The Go code's NaN/Infinity guards
(`math.IsNaN`/`math.IsInf` and the `sanitize` pass) are represented by
`sanitizeQ`: in the exact-rational model division is total (`x / 0 = 0`)
and non-finite values cannot arise, so the guard is the identity.
`time.Now()` — which the Go feature extractor reads for its time-of-day
and day-of-week features — is passed explicitly as a `WallClock` value. -/

/-- `MLConfig`. -/
structure MLConfig where
  lookbackPeriod : ℕ
  trainingRatio : ℚ
  minTrainingPeriod : ℕ
  retrainingPeriod : ℕ
  featureWindow : ℕ
deriving DecidableEq

/-- `TradingFeatures`: the fixed feature schema. -/
structure TradingFeatures where
  PriceChange1 : ℚ
  PriceChange5 : ℚ
  PriceChange10 : ℚ
  RSI : ℚ
  EMA9 : ℚ
  EMA21 : ℚ
  EMASpread : ℚ
  MACD : ℚ
  MACDSignal : ℚ
  MACDHistogram : ℚ
  VolumeRatio : ℚ
  VolumeMA : ℚ
  ATR : ℚ
  BollingerWidth : ℚ
  BollingerPosition : ℚ
  HighLowRatio : ℚ
  CandleBody : ℚ
  CandleWick : ℚ
  HourOfDay : ℚ
  DayOfWeek : ℚ
  FutureReturn : ℚ
  FutureDirection : ℤ
deriving DecidableEq

/-- The all-zero `TradingFeatures` (Go's zero value for the struct). -/
def zeroTF : TradingFeatures := ⟨0, 0, 0, 0, 0, 0, 0, 0, 0, 0, 0, 0, 0, 0, 0, 0, 0, 0, 0, 0, 0, 0⟩

/-- `FeatureStats`. -/
structure FeatureStats where
  mean : ℚ
  stdDev : ℚ
  min : ℚ
  max : ℚ
deriving DecidableEq

/-- `ModelPerformance`. -/
structure ModelPerformance where
  accuracy : ℚ
  precision : ℚ
  recallV : ℚ
  f1Score : ℚ
  profitabilityScore : ℚ
  sharpeRatio : ℚ
  trainingLoss : ℚ
  validationLoss : ℚ
deriving DecidableEq

/-- The wall-clock reading `time.Now()` hands the feature extractor:
`Hour()` is in `0..23` and `Weekday()` in `0..6`. -/
structure WallClock where
  hour : Fin 24
  weekday : Fin 7
deriving DecidableEq

/-- `MLModel`: the predictor state.  `lastTraining` is a timestamp. -/
structure MLModel where
  config : MLConfig
  features : List TradingFeatures
  trainedWeights : List (String × ℚ)
  featureStats : List (String × FeatureStats)
  lastTraining : ℤ
  trainingCount : ℕ
  performance : ModelPerformance
  l2Lambda : ℚ
deriving DecidableEq

/-- `PredictionResult`. -/
structure PredictionResult where
  direction : String
  confidence : ℚ
  expectedReturn : ℚ
  features : TradingFeatures
deriving DecidableEq

/-- `NewMLModel`. -/
def NewMLModel (config : MLConfig) : MLModel :=
  { config := config, features := [], trainedWeights := [], featureStats := []
    lastTraining := 0, trainingCount := 0
    performance := ⟨0, 0, 0, 0, 0, 0, 0, 0⟩, l2Lambda := 1/10000 }

/-- Read a key from a stats map (`m[k]` with the `ok` flag). -/
def lookupS (m : List (String × FeatureStats)) (k : String) : Option FeatureStats :=
  (m.find? (fun p => p.1 == k)).map (fun p => p.2)

/-- Write a key in a stats map (`m[k] = x` in Go). -/
def setS : List (String × FeatureStats) → String → FeatureStats →
    List (String × FeatureStats)
  | [], k, x => [(k, x)]
  | (k', y) :: rest, k, x =>
    if k' = k then (k, x) :: rest else (k', y) :: setS rest k x

/-- The Go NaN/Infinity guard: in the exact-rational model non-finite
values cannot arise, so replacing them by 0 is the identity. -/
def sanitizeQ (v : ℚ) : ℚ := v

/-- `sanitizeFeatures`: apply the NaN/Infinity guard to every field. -/
def MLModel.sanitizeFeatures (ml : MLModel) (f : TradingFeatures) : TradingFeatures :=
  { f with
    PriceChange1 := sanitizeQ f.PriceChange1
    PriceChange5 := sanitizeQ f.PriceChange5
    PriceChange10 := sanitizeQ f.PriceChange10
    RSI := sanitizeQ f.RSI
    EMA9 := sanitizeQ f.EMA9
    EMA21 := sanitizeQ f.EMA21
    EMASpread := sanitizeQ f.EMASpread
    MACD := sanitizeQ f.MACD
    MACDSignal := sanitizeQ f.MACDSignal
    MACDHistogram := sanitizeQ f.MACDHistogram
    VolumeRatio := sanitizeQ f.VolumeRatio
    VolumeMA := sanitizeQ f.VolumeMA
    ATR := sanitizeQ f.ATR
    BollingerWidth := sanitizeQ f.BollingerWidth
    BollingerPosition := sanitizeQ f.BollingerPosition
    HighLowRatio := sanitizeQ f.HighLowRatio
    CandleBody := sanitizeQ f.CandleBody
    CandleWick := sanitizeQ f.CandleWick
    HourOfDay := sanitizeQ f.HourOfDay
    DayOfWeek := sanitizeQ f.DayOfWeek
    FutureReturn := sanitizeQ f.FutureReturn }

/-- `calculateSMA` (ml_strategy.go lines 280-291) over an abstract
indicator: mean of the trailing `period` values ending at `index`, zero
without enough history.  The Go loop `for i := index-period+1; i <= index`
is written with the start index `index + 1 - period` (identical on the
guarded branch). -/
def MLModel.calculateSMA (ml : MLModel) (v : ℕ → ℚ) (index period : ℕ) : ℚ :=
  if index < period - 1 then 0
  else ((List.range period).map (fun j => v (index + 1 - period + j))).sum / (period : ℚ)

/-- `calculateStdDev` (ml_strategy.go lines 294-312): population standard
deviation over the trailing window, with the defensive `variance < 0`
guard of the source. -/
def MLModel.calculateStdDev (ml : MLModel) (v : ℕ → ℚ) (index period : ℕ) : ℚ :=
  if index < period - 1 then 0
  else
    let mean := ml.calculateSMA v index period
    let sumSquares := ((List.range period).map
      (fun j => (v (index + 1 - period + j) - mean) *
        (v (index + 1 - period + j) - mean))).sum
    let variance := sumSquares / (period : ℚ)
    if variance < 0 then 0 else sqrtF variance

/-- `calculateATR` (ml_strategy.go lines 253-277). -/
def MLModel.calculateATR (ml : MLModel) (ts : List Candle) (index period : ℕ) : ℚ :=
  if index < period then 0
  else ((List.range period).map (fun j =>
    let i := index + 1 - period + j
    let high := highOf ts i
    let low := lowOf ts i
    let prevClose := closeOf ts (i - 1)
    max (high - low) (max |high - prevClose| |low - prevClose|))).sum / (period : ℚ)

/-- `ExtractFeatures` (ml_strategy.go lines 115-218): `nil` (here `none`)
when `index < FeatureWindow`, otherwise the populated feature vector.
The Go code reads `time.Now()` for the two time features; that reading is
the explicit `now` argument here. -/
def MLModel.ExtractFeatures (ml : MLModel) (ts : List Candle) (index : ℕ)
    (now : WallClock) : Option TradingFeatures :=
  if index < ml.config.featureWindow then none
  else
    let closePrices := closeOf ts
    let currentPrice := closePrices index
    let priceChange1 :=
      if 1 ≤ index then
        let prevPrice := closePrices (index - 1)
        if ¬ prevPrice = 0 then (currentPrice - prevPrice) / prevPrice else 0
      else 0
    let priceChange5 :=
      if 5 ≤ index then
        let prevPrice := closePrices (index - 5)
        if ¬ prevPrice = 0 then (currentPrice - prevPrice) / prevPrice else 0
      else 0
    let priceChange10 :=
      if 10 ≤ index then
        let prevPrice := closePrices (index - 10)
        if ¬ prevPrice = 0 then (currentPrice - prevPrice) / prevPrice else 0
      else 0
    let rsi := rsiF 14 closePrices index
    let ema9 := emaF 9 closePrices index
    let ema21 := emaF 21 closePrices index
    let emaSpread := if ¬ ema21 = 0 then (ema9 - ema21) / ema21 else 0
    let macd := macdF 12 26 closePrices index
    let macdSignal := macdSignalLineF 12 26 9 closePrices index
    let macdHistogram := macd - macdSignal
    let volMA := ml.calculateSMA (volOf ts) index 20
    let currentVol := volOf ts index
    let volumeRatio := if 0 < volMA then currentVol / volMA else 1
    let atr := ml.calculateATR ts index 14
    let sma := ml.calculateSMA closePrices index 20
    let stdDev := ml.calculateStdDev closePrices index 20
    let upperBB := sma + 2 * stdDev
    let lowerBB := sma - 2 * stdDev
    let bandWidth := upperBB - lowerBB
    let bollingerWidth := if ¬ sma = 0 then bandWidth / sma else 0
    let bollingerPosition := if ¬ bandWidth = 0 then (currentPrice - lowerBB) / bandWidth else 0
    let highPrice := highOf ts index
    let lowPrice := lowOf ts index
    let highLowRatio := if ¬ currentPrice = 0 then (highPrice - lowPrice) / currentPrice else 0
    let openPrice := (ts.getD index cdef).openPrice
    let candleBody := if ¬ currentPrice = 0 then |currentPrice - openPrice| / currentPrice else 0
    let upperWick := max (highPrice - currentPrice) (highPrice - openPrice)
    let lowerWick := max (currentPrice - lowPrice) (openPrice - lowPrice)
    let candleWick := if ¬ currentPrice = 0 then (upperWick + lowerWick) / currentPrice else 0
    let hourOfDay := ((now.hour : ℕ) : ℚ) / 24
    let dayOfWeek := ((now.weekday : ℕ) : ℚ) / 7
    some (ml.sanitizeFeatures
      { PriceChange1 := priceChange1, PriceChange5 := priceChange5
        PriceChange10 := priceChange10, RSI := rsi, EMA9 := ema9, EMA21 := ema21
        EMASpread := emaSpread, MACD := macd, MACDSignal := macdSignal
        MACDHistogram := macdHistogram, VolumeRatio := volumeRatio
        VolumeMA := volMA, ATR := atr, BollingerWidth := bollingerWidth
        BollingerPosition := bollingerPosition, HighLowRatio := highLowRatio
        CandleBody := candleBody, CandleWick := candleWick
        HourOfDay := hourOfDay, DayOfWeek := dayOfWeek
        FutureReturn := 0, FutureDirection := 0 })

/-- `AddTrainingData` (ml_strategy.go lines 315-324): sanitize, append,
and evict the oldest entry past the lookback bound. -/
def MLModel.AddTrainingData (ml : MLModel) (features : TradingFeatures) : MLModel :=
  let fs := ml.features ++ [ml.sanitizeFeatures features]
  { ml with features := if ml.config.lookbackPeriod < fs.length then fs.drop 1 else fs }

/-- The per-feature value switch of `getFeatureValues` (a name outside
the ten known features reads as the Go zero value 0). -/
def featureValue (featureName : String) (f : TradingFeatures) : ℚ :=
  if featureName = "PriceChange1" then f.PriceChange1
  else if featureName = "PriceChange5" then f.PriceChange5
  else if featureName = "PriceChange10" then f.PriceChange10
  else if featureName = "RSI" then f.RSI
  else if featureName = "EMASpread" then f.EMASpread
  else if featureName = "MACDHistogram" then f.MACDHistogram
  else if featureName = "ATR" then f.ATR
  else if featureName = "BollingerWidth" then f.BollingerWidth
  else if featureName = "BollingerPosition" then f.BollingerPosition
  else if featureName = "VolumeRatio" then f.VolumeRatio
  else 0

/-- `getFeatureValues` (ml_strategy.go lines 378-407). -/
def MLModel.getFeatureValues (ml : MLModel) (featureName : String) : List ℚ :=
  ml.features.map (featureValue featureName)

/-- `calculateStats` (ml_strategy.go lines 410-447): population standard
deviation, minimum and maximum of a value list. -/
def MLModel.calculateStats (ml : MLModel) (values : List ℚ) : FeatureStats :=
  if values.length = 0 then ⟨0, 0, 0, 0⟩
  else
    let mean := values.sum / (values.length : ℚ)
    let sumSquares := (values.map (fun v => (v - mean) * (v - mean))).sum
    let minVal := values.foldl min (values.getD 0 0)
    let maxVal := values.foldl max (values.getD 0 0)
    ⟨mean, sqrtF (sumSquares / (values.length : ℚ)), minVal, maxVal⟩

/-- The ten feature names whose statistics are tracked
(ml_strategy.go lines 366-369). -/
def featureNames : List String :=
  ["PriceChange1", "PriceChange5", "PriceChange10", "RSI", "EMASpread",
   "MACDHistogram", "ATR", "BollingerWidth", "BollingerPosition", "VolumeRatio"]

/-- `calculateFeatureStats` (ml_strategy.go lines 361-375): a no-op below
ten stored samples, else a full recompute of every tracked feature. -/
def MLModel.calculateFeatureStats (ml : MLModel) : MLModel :=
  if ml.features.length < 10 then ml
  else
    let newStats := featureNames.foldl
      (fun fs name => setS fs name (ml.calculateStats (ml.getFeatureValues name)))
      ml.featureStats
    { ml with featureStats := newStats }

/-- `normalize` (ml_strategy.go lines 347-358): z-score with the missing
key and zero-standard-deviation guards (the float non-finiteness guards
are the identity in the exact model). -/
def MLModel.normalize (ml : MLModel) (featureName : String) (value : ℚ) : ℚ :=
  match lookupS ml.featureStats featureName with
  | none => 0
  | some stats =>
    if stats.stdDev = 0 then 0 else sanitizeQ ((value - stats.mean) / stats.stdDev)

/-- `NormalizeFeatures` (ml_strategy.go lines 327-344): computes the
feature statistics when none exist yet (mutating the model), then
z-scores the ten tracked feature fields. -/
def MLModel.NormalizeFeatures (ml : MLModel) (features : TradingFeatures) :
    MLModel × TradingFeatures :=
  let ml := if ml.featureStats.length = 0 then ml.calculateFeatureStats else ml
  (ml,
    { features with
      PriceChange1 := ml.normalize "PriceChange1" features.PriceChange1
      PriceChange5 := ml.normalize "PriceChange5" features.PriceChange5
      PriceChange10 := ml.normalize "PriceChange10" features.PriceChange10
      RSI := ml.normalize "RSI" features.RSI
      EMASpread := ml.normalize "EMASpread" features.EMASpread
      MACDHistogram := ml.normalize "MACDHistogram" features.MACDHistogram
      ATR := ml.normalize "ATR" features.ATR
      BollingerWidth := ml.normalize "BollingerWidth" features.BollingerWidth
      BollingerPosition := ml.normalize "BollingerPosition" features.BollingerPosition
      VolumeRatio := ml.normalize "VolumeRatio" features.VolumeRatio })

/-- `predictValue` (ml_strategy.go lines 578-591): the linear score. -/
def MLModel.predictValue (ml : MLModel) (features : TradingFeatures) : ℚ :=
  getA ml.trainedWeights "bias" +
    getA ml.trainedWeights "PriceChange1" * features.PriceChange1 +
    getA ml.trainedWeights "PriceChange5" * features.PriceChange5 +
    getA ml.trainedWeights "PriceChange10" * features.PriceChange10 +
    getA ml.trainedWeights "RSI" * features.RSI +
    getA ml.trainedWeights "EMASpread" * features.EMASpread +
    getA ml.trainedWeights "MACDHistogram" * features.MACDHistogram +
    getA ml.trainedWeights "ATR" * features.ATR +
    getA ml.trainedWeights "BollingerPosition" * features.BollingerPosition +
    getA ml.trainedWeights "VolumeRatio" * features.VolumeRatio

/-- One sample of the inner gradient-descent loop
(ml_strategy.go lines 515-546). -/
def trainSampleStep (acc : MLModel × ℚ) (data : TradingFeatures) : MLModel × ℚ :=
  let learningRate : ℚ := 1/10000
  let (ml, totalError) := acc
  let (ml, normalized) := ml.NormalizeFeatures data
  let prediction := ml.predictValue normalized
  let error := data.FutureReturn - prediction
  let error := if 1 < error then 1 else if error < -1 then -1 else error
  let totalError := totalError + error * error
  let w := ml.trainedWeights
  let w := setA w "PriceChange1" (getA w "PriceChange1" + learningRate * error * normalized.PriceChange1)
  let w := setA w "PriceChange5" (getA w "PriceChange5" + learningRate * error * normalized.PriceChange5)
  let w := setA w "PriceChange10" (getA w "PriceChange10" + learningRate * error * normalized.PriceChange10)
  let w := setA w "RSI" (getA w "RSI" + learningRate * error * normalized.RSI)
  let w := setA w "EMASpread" (getA w "EMASpread" + learningRate * error * normalized.EMASpread)
  let w := setA w "MACDHistogram" (getA w "MACDHistogram" + learningRate * error * normalized.MACDHistogram)
  let w := setA w "ATR" (getA w "ATR" + learningRate * error * normalized.ATR)
  let w := setA w "BollingerPosition" (getA w "BollingerPosition" + learningRate * error * normalized.BollingerPosition)
  let w := setA w "VolumeRatio" (getA w "VolumeRatio" + learningRate * error * normalized.VolumeRatio)
  let w := setA w "bias" (getA w "bias" + learningRate * error)
  ({ ml with trainedWeights := w }, totalError)

/-- One epoch of `trainLinearModel` (ml_strategy.go lines 512-571):
a pass over the training slice followed by the L2 weight-decay sweep and
the training-loss update. -/
def runEpoch (ml : MLModel) (trainData : List TradingFeatures) : MLModel :=
  let learningRate : ℚ := 1/10000
  let res := trainData.foldl trainSampleStep (ml, 0)
  let ml := res.1
  let totalError := res.2
  let reg := (ml.trainedWeights.filter (fun p => !(p.1 == "bias"))).foldl
    (fun acc p => acc + p.2 * p.2) 0
  let w := ml.trainedWeights.foldl
    (fun w p =>
      if p.1 = "bias" then w
      else setA w p.1 (getA w p.1 - learningRate * ml.l2Lambda * p.2))
    ml.trainedWeights
  let ml := { ml with trainedWeights := w }
  if 0 < trainData.length then
    { ml with performance :=
        { ml.performance with trainingLoss :=
            totalError / (trainData.length : ℚ) + ml.l2Lambda * reg } }
  else ml

/-- The epoch loop with the early-stopping check
(ml_strategy.go lines 512-572). -/
def trainEpochs : ℕ → MLModel → List TradingFeatures → MLModel
  | 0, ml, _ => ml
  | n + 1, ml, trainData =>
    let ml := runEpoch ml trainData
    if ml.performance.trainingLoss < 1/10000 then ml else trainEpochs n ml trainData

/-- `trainLinearModel` (ml_strategy.go lines 494-575): seed the hand-tuned
starting weights, then run up to 100 epochs. -/
def MLModel.trainLinearModel (ml : MLModel) (trainData : List TradingFeatures) : MLModel :=
  let ml := { ml with trainedWeights :=
    [("PriceChange1", 1/10), ("PriceChange5", 3/20), ("PriceChange10", 1/10),
     ("RSI", 1/20), ("EMASpread", 1/5), ("MACDHistogram", 3/20), ("ATR", -1/10),
     ("BollingerPosition", 1/10), ("bias", 0)] }
  trainEpochs 100 ml trainData

/-- One validation sample of `evaluateModel`
(ml_strategy.go lines 605-642): accumulates (model, squared error,
correct count, true/false positives, false negatives). -/
def evalSampleStep (acc : MLModel × ℚ × ℕ × ℕ × ℕ × ℕ) (data : TradingFeatures) :
    MLModel × ℚ × ℕ × ℕ × ℕ × ℕ :=
  let (ml, totalError, correct, tp, fp, fn) := acc
  let data := ml.sanitizeFeatures data
  let (ml, normalized) := ml.NormalizeFeatures data
  let prediction := ml.predictValue normalized
  let error := data.FutureReturn - prediction
  let totalError := totalError + error * error
  let predictedDirection : ℤ :=
    if 1/1000 < prediction then 1 else if prediction < -(1/1000) then -1 else 0
  let actualDirection : ℤ :=
    if 1/1000 < data.FutureReturn then 1
    else if data.FutureReturn < -(1/1000) then -1 else 0
  let correct := if predictedDirection = actualDirection then correct + 1 else correct
  let tp := if predictedDirection = 1 ∧ actualDirection = 1 then tp + 1 else tp
  let fp := if predictedDirection = 1 ∧ ¬ actualDirection = 1 then fp + 1 else fp
  let fn := if ¬ predictedDirection = 1 ∧ actualDirection = 1 then fn + 1 else fn
  (ml, totalError, correct, tp, fp, fn)

/-- `evaluateModel` (ml_strategy.go lines 594-657). -/
def MLModel.evaluateModel (ml : MLModel) (validationData : List TradingFeatures) :
    MLModel :=
  if validationData.length = 0 then ml
  else
    let res := validationData.foldl evalSampleStep (ml, 0, 0, 0, 0, 0)
    let ml := res.1
    let totalError := res.2.1
    let correct := res.2.2.1
    let tp := res.2.2.2.1
    let fp := res.2.2.2.2.1
    let fn := res.2.2.2.2.2
    let p₀ := ml.performance
    let p₁ := { p₀ with
      validationLoss := totalError / (validationData.length : ℚ)
      accuracy := (correct : ℚ) / (validationData.length : ℚ) }
    let p₂ := if 0 < tp + fp then { p₁ with precision := (tp : ℚ) / ((tp + fp : ℕ) : ℚ) } else p₁
    let p₃ := if 0 < tp + fn then { p₂ with recallV := (tp : ℚ) / ((tp + fn : ℕ) : ℚ) } else p₂
    let p₄ :=
      if 0 < p₃.precision + p₃.recallV then
        { p₃ with f1Score := 2 * (p₃.precision * p₃.recallV) / (p₃.precision + p₃.recallV) }
      else p₃
    { ml with performance := p₄ }

/-- Go's float-to-int conversion `int(x)`: truncation toward zero. -/
def truncQ (q : ℚ) : ℤ := q.num / q.den

/-- The typed failure of `TrainModel` on a buffer below the configured
minimum (the Go error
`"insufficient training data: %d, need at least %d"`). -/
inductive TrainError where
  | insufficientData (got need : ℕ)
deriving DecidableEq

/-- `TrainModel` (ml_strategy.go lines 450-491), with `time.Now()` passed
explicitly: returns the receiver's state after the call together with the
Go error (`none` on success).  `trainLinearModel` never fails, so the Go
`training failed` branch is unreachable. -/
def MLModel.TrainModel (ml : MLModel) (now : ℤ) : MLModel × Option TrainError :=
  if ml.features.length < ml.config.minTrainingPeriod then
    (ml, some (.insufficientData ml.features.length ml.config.minTrainingPeriod))
  else
    let ml := ml.calculateFeatureStats
    let len := ml.features.length
    let trainSize₀ := truncQ ((len : ℚ) * ml.config.trainingRatio)
    let trainSize₁ :=
      if trainSize₀ ≤ 0 ∨ (len : ℤ) ≤ trainSize₀ then
        let t := truncQ ((len : ℚ) * (8/10))
        if t ≤ 0 then (len : ℤ) - 1 else t
      else trainSize₀
    let trainSize := trainSize₁.toNat
    let trainData := ml.features.take trainSize
    let validationData := ml.features.drop trainSize
    let ml := { ml with trainedWeights := [] }
    let ml := ml.trainLinearModel trainData
    let ml := ml.evaluateModel validationData
    ({ ml with lastTraining := now, trainingCount := ml.trainingCount + 1 }, none)

/-- `Predict` (ml_strategy.go lines 660-695).  In Go the embedded
`NormalizeFeatures` call may also compute the model's statistics as a side
effect; the returned `PredictionResult` — all a caller observes — is
modelled here. -/
def MLModel.Predict (ml : MLModel) (features : TradingFeatures) : PredictionResult :=
  if ml.trainedWeights.length = 0 then
    { direction := "HOLD", confidence := 0, expectedReturn := 0, features := zeroTF }
  else
    let res := ml.NormalizeFeatures features
    let expectedReturn := res.1.predictValue res.2
    let threshold : ℚ := 1/1000
    if threshold < expectedReturn then
      { direction := "BUY", confidence := min (|expectedReturn| * 100) 1
        expectedReturn := expectedReturn, features := features }
    else if expectedReturn < -threshold then
      { direction := "SELL", confidence := min (|expectedReturn| * 100) 1
        expectedReturn := expectedReturn, features := features }
    else
      { direction := "HOLD", confidence := 0
        expectedReturn := expectedReturn, features := features }

/-- `ShouldRetrain` (ml_strategy.go lines 698-708), with the current time
passed explicitly and time measured in minutes since `lastTraining`. -/
def MLModel.ShouldRetrain (ml : MLModel) (now : ℤ) : Bool :=
  if ml.trainedWeights.length = 0 then
    decide (ml.config.minTrainingPeriod ≤ ml.features.length)
  else
    decide ((ml.config.retrainingPeriod : ℤ) < now - ml.lastTraining ∧
      ml.config.minTrainingPeriod ≤ ml.features.length)

/-- A model with 50 buffered samples and `minTrainingPeriod = 100`
(Scenario B). -/
def mlEx : MLModel :=
  { NewMLModel ⟨500, 7/10, 100, 60, 30⟩ with features := List.replicate 50 zeroTF }

/-- A predictor configuration with `featureWindow = 10`. -/
def mlP : MLModel := NewMLModel ⟨500, 7/10, 100, 60, 10⟩

/-- A trained-looking model whose only weight is a bias of 1: its
`Predict` answers BUY on every feature vector. -/
def mlBuy : MLModel := { mlP with trainedWeights := [("bias", 1)] }

/-! ### Theorems -/

theorem sqrtF_zero : sqrtF 0 = 0 := rfl

theorem sqrtF_nonneg (q : ℚ) : 0 ≤ sqrtF q := by
  unfold sqrtF
  split
  · exact le_refl 0
  · apply div_nonneg
    · exact_mod_cast Int.sqrt_nonneg q.num
    · exact_mod_cast Nat.zero_le _

theorem sqrtF_pos {q : ℚ} (h : 0 < q) : 0 < sqrtF q := by
  unfold sqrtF
  rw [if_neg (not_le.mpr h)]
  have hnum : 0 < q.num := Rat.num_pos.mpr h
  have h1 : (1 : ℤ) ≤ Int.sqrt q.num := by
    unfold Int.sqrt
    have ht : 0 < q.num.toNat := by omega
    have := Nat.sqrt_pos.mpr ht
    omega
  have hden : 0 < Nat.sqrt q.den := Nat.sqrt_pos.mpr q.pos
  apply div_pos
  · exact_mod_cast lt_of_lt_of_le zero_lt_one (by exact_mod_cast h1)
  · exact_mod_cast hden

theorem natSqrt_eq (n a : ℕ) (h₁ : a * a ≤ n) (h₂ : n < (a + 1) * (a + 1)) :
    Nat.sqrt n = a := by
  have hl : a ≤ Nat.sqrt n := Nat.le_sqrt.mpr h₁
  have hu : Nat.sqrt n < a + 1 := Nat.sqrt_lt.mpr h₂
  omega

theorem sqrtF_two : sqrtF 2 = 1 := by
  unfold sqrtF
  rw [if_neg (by norm_num)]
  rw [show ((2 : ℚ).num) = 2 from rfl, show ((2 : ℚ).den) = 1 from rfl]
  rw [show Int.sqrt 2 = ((Nat.sqrt 2 : ℕ) : ℤ) from rfl,
    natSqrt_eq 2 1 (by norm_num) (by norm_num), natSqrt_eq 1 1 (by norm_num) (by norm_num)]
  norm_num

theorem sqrtF_turn : sqrtF 252 = 15 := by
  unfold sqrtF
  rw [if_neg (by norm_num)]
  rw [show ((252 : ℚ).num) = 252 from rfl, show ((252 : ℚ).den) = 1 from rfl]
  rw [show Int.sqrt 252 = ((Nat.sqrt 252 : ℕ) : ℤ) from rfl,
    natSqrt_eq 252 15 (by norm_num) (by norm_num), natSqrt_eq 1 1 (by norm_num) (by norm_num)]
  norm_num

theorem AgreeUpTo.mono {i j : ℕ} {v w : ℕ → ℚ} (h : AgreeUpTo i v w)
    (hji : j ≤ i) : AgreeUpTo j v w :=
  fun k hk => h k (le_trans hk hji)

theorem smaF_congr {i : ℕ} {v w : ℕ → ℚ} (n : ℕ) (h : AgreeUpTo i v w) :
    smaF n v i = smaF n w i := by
  unfold smaF
  split
  · rfl
  · congr 1
    congr 1
    apply List.map_congr_left
    intro j _
    exact h (i - j) (Nat.sub_le i j)

theorem emaF_congr {v w : ℕ → ℚ} (n : ℕ) :
    ∀ {i : ℕ}, AgreeUpTo i v w → emaF n v i = emaF n w i := by
  intro i
  induction i with
  | zero =>
    intro h
    unfold emaF
    split
    · rfl
    · exact smaF_congr n h
  | succ i ih =>
    intro h
    unfold emaF
    split
    · rfl
    · split
      · exact smaF_congr n h
      · rw [h (i + 1) le_rfl, ih (h.mono (Nat.le_succ i))]

theorem mmaF_congr {v w : ℕ → ℚ} (n : ℕ) :
    ∀ {i : ℕ}, AgreeUpTo i v w → mmaF n v i = mmaF n w i := by
  intro i
  induction i with
  | zero =>
    intro h
    unfold mmaF
    split
    · rfl
    · exact smaF_congr n h
  | succ i ih =>
    intro h
    unfold mmaF
    split
    · rfl
    · split
      · exact smaF_congr n h
      · rw [h (i + 1) le_rfl, ih (h.mono (Nat.le_succ i))]

theorem gainF_agree {i : ℕ} {v w : ℕ → ℚ} (h : AgreeUpTo i v w) :
    AgreeUpTo i (gainF v) (gainF w) := by
  intro j hj
  cases j with
  | zero => rfl
  | succ k =>
    show max (v (k + 1) - v k) 0 = max (w (k + 1) - w k) 0
    rw [h (k + 1) hj, h k (le_trans (Nat.le_succ k) hj)]

theorem lossF_agree {i : ℕ} {v w : ℕ → ℚ} (h : AgreeUpTo i v w) :
    AgreeUpTo i (lossF v) (lossF w) := by
  intro j hj
  cases j with
  | zero => rfl
  | succ k =>
    show max (v k - v (k + 1)) 0 = max (w k - w (k + 1)) 0
    rw [h (k + 1) hj, h k (le_trans (Nat.le_succ k) hj)]

theorem rsF_congr {i : ℕ} {v w : ℕ → ℚ} (n : ℕ) (h : AgreeUpTo i v w) :
    rsF n v i = rsF n w i := by
  unfold rsF
  rw [mmaF_congr n (gainF_agree h), mmaF_congr n (lossF_agree h)]

theorem rsiF_congr {i : ℕ} {v w : ℕ → ℚ} (n : ℕ) (h : AgreeUpTo i v w) :
    rsiF n v i = rsiF n w i := by
  unfold rsiF
  rw [rsF_congr n h]

theorem macdF_congr {i : ℕ} {v w : ℕ → ℚ} (s l : ℕ) (h : AgreeUpTo i v w) :
    macdF s l v i = macdF s l w i := by
  unfold macdF
  rw [emaF_congr s h, emaF_congr l h]

theorem macdF_agree {i : ℕ} {v w : ℕ → ℚ} (s l : ℕ) (h : AgreeUpTo i v w) :
    AgreeUpTo i (macdF s l v) (macdF s l w) :=
  fun j hj => macdF_congr s l (h.mono hj)

theorem macdSignalLineF_congr {i : ℕ} {v w : ℕ → ℚ} (s l n : ℕ)
    (h : AgreeUpTo i v w) : macdSignalLineF s l n v i = macdSignalLineF s l n w i := by
  unfold macdSignalLineF
  exact emaF_congr n (macdF_agree s l h)

theorem macdHistF_congr {i : ℕ} {v w : ℕ → ℚ} (s l n : ℕ)
    (h : AgreeUpTo i v w) : macdHistF s l n v i = macdHistF s l n w i := by
  unfold macdHistF
  rw [macdF_congr s l h, macdSignalLineF_congr s l n h]

/-- Appending candles leaves every close at an index inside the original
series unchanged. -/
theorem closeOf_append_agree {ts ext : List Candle} {i : ℕ}
    (h : i < ts.length) : AgreeUpTo i (closeOf (ts ++ ext)) (closeOf ts) := by
  intro j hj
  unfold closeOf
  have hjl : j < ts.length := lt_of_le_of_lt hj h
  simp [List.getD, List.getElem?_append, hjl]

/-- C1: Causality / no-lookahead.  The signal the backtest loop obtains at
step `i` is a function of the candles at indices `0..i` only: appending
any additional candles after index `i` leaves the signal, and the value of
every indicator `analyzeClassic` consults, unchanged at `i`. -/
theorem signal_causal_no_lookahead (useMLAnalyze : Bool) (symbol : String)
    (ts ext : List Candle) (i : ℕ) (h : i < ts.length) :
    signalAt useMLAnalyze symbol (ts ++ ext) i = signalAt useMLAnalyze symbol ts i ∧
    emaF 9 (closeOf (ts ++ ext)) i = emaF 9 (closeOf ts) i ∧
    emaF 21 (closeOf (ts ++ ext)) i = emaF 21 (closeOf ts) i ∧
    rsiF 14 (closeOf (ts ++ ext)) i = rsiF 14 (closeOf ts) i ∧
    macdF 12 26 (closeOf (ts ++ ext)) i = macdF 12 26 (closeOf ts) i ∧
    macdHistF 12 26 9 (closeOf (ts ++ ext)) i = macdHistF 12 26 9 (closeOf ts) i := by
  have hagree := @closeOf_append_agree ts ext i h
  refine ⟨?_, emaF_congr 9 hagree, emaF_congr 21 hagree, rsiF_congr 14 hagree,
    macdF_congr 12 26 hagree, macdHistF_congr 12 26 9 hagree⟩
  unfold signalAt
  rw [List.take_append_of_le_length (Nat.succ_le_of_lt h)]

/-- Witness for C1 at a concrete input. -/
theorem signal_causal_no_lookahead_witness :
    1 < (constSeries 5 2).length ∧
    (signalAt false "BTCUSDT" (constSeries 5 2 ++ constSeries 7 1) 1 =
        signalAt false "BTCUSDT" (constSeries 5 2) 1 ∧
      emaF 9 (closeOf (constSeries 5 2 ++ constSeries 7 1)) 1 =
        emaF 9 (closeOf (constSeries 5 2)) 1 ∧
      emaF 21 (closeOf (constSeries 5 2 ++ constSeries 7 1)) 1 =
        emaF 21 (closeOf (constSeries 5 2)) 1 ∧
      rsiF 14 (closeOf (constSeries 5 2 ++ constSeries 7 1)) 1 =
        rsiF 14 (closeOf (constSeries 5 2)) 1 ∧
      macdF 12 26 (closeOf (constSeries 5 2 ++ constSeries 7 1)) 1 =
        macdF 12 26 (closeOf (constSeries 5 2)) 1 ∧
      macdHistF 12 26 9 (closeOf (constSeries 5 2 ++ constSeries 7 1)) 1 =
        macdHistF 12 26 9 (closeOf (constSeries 5 2)) 1) :=
  ⟨by decide, signal_causal_no_lookahead false "BTCUSDT" (constSeries 5 2)
    (constSeries 7 1) 1 (by decide)⟩

theorem c5Bars_agree : AgreeUpTo 26 (closeOf c5Bars) c5v := by
  intro j hj
  have hj' : j < 27 := by omega
  unfold closeOf c5Bars
  simp [List.getD, List.getElem?_map, List.getElem?_range, hj']

set_option maxRecDepth 100000 in
set_option maxHeartbeats 16000000 in
/-- Counterexample to C5 as stated: on `c5Bars` the code answers BUY even
though the MACD is *below* its signal line (so the spec's BUY rule, stated
with the signal line, answers HOLD).  The code's third BUY condition
compares the MACD with the value of `NewMACDHistogramIndicator`, which is
MACD minus the signal line, not the signal line itself. -/
theorem analyzeClassic_spec_counterexample :
    analyzeClassic "BTCUSDT" c5Bars = "BUY" ∧
    macdF 12 26 (closeOf c5Bars) 26 < macdSignalLineF 12 26 9 (closeOf c5Bars) 26 ∧
    analyzeClassicSpec "BTCUSDT" c5Bars = "HOLD" := by
  have h9 : emaF 9 (closeOf c5Bars) 26 = 311702/3125 := by
    rw [emaF_congr 9 c5Bars_agree]
    norm_num [emaF, smaF, c5v, List.range_succ]
  have h21 : emaF 21 (closeOf c5Bars) 26 = 16054382/161051 := by
    rw [emaF_congr 21 c5Bars_agree]
    norm_num [emaF, smaF, c5v, List.range_succ]
  have h9p : emaF 9 (closeOf c5Bars) 25 = 61988/625 := by
    rw [emaF_congr 9 (c5Bars_agree.mono (by omega))]
    norm_num [emaF, smaF, c5v, List.range_succ]
  have h21p : emaF 21 (closeOf c5Bars) 25 = 1456100/14641 := by
    rw [emaF_congr 21 (c5Bars_agree.mono (by omega))]
    norm_num [emaF, smaF, c5v, List.range_succ]
  have hrsi : rsiF 14 (closeOf c5Bars) 26 = 4036200/68923 := by
    rw [rsiF_congr 14 c5Bars_agree]
    norm_num [rsiF, rsF, rsSentinel, mmaF, gainF, lossF, smaF, c5v, List.range_succ]
  have hmacd : macdF 12 26 (closeOf c5Bars) 26 = -623132/3341637 := by
    rw [macdF_congr 12 26 c5Bars_agree]
    norm_num [macdF, emaF, smaF, c5v, List.range_succ]
  have hsig : macdSignalLineF 12 26 9 (closeOf c5Bars) 26 =
      1239196336206148292/20395733642578125 := by
    rw [macdSignalLineF_congr 12 26 9 c5Bars_agree]
    norm_num [macdSignalLineF, macdF, emaF, smaF, c5v, List.range_succ]
  have hhist : macdHistF 12 26 9 (closeOf c5Bars) 26 =
      -623132/3341637 - 1239196336206148292/20395733642578125 := by
    unfold macdHistF
    rw [hmacd, hsig]
  have hlen : c5Bars.length = 27 := by simp [c5Bars]
  refine ⟨?_, ?_, ?_⟩
  · unfold analyzeClassic
    rw [hlen]
    norm_num [h9, h21, h9p, h21p, hrsi, hmacd, hhist]
  · rw [hmacd, hsig]
    norm_num
  · unfold analyzeClassicSpec
    rw [hlen]
    norm_num [h9, h21, h9p, h21p, hrsi, hmacd, hsig]

/-- C5 amended: the rule-based strategy returns WAIT below 27 bars, and
otherwise decides BUY/SELL with the EMA-cross and RSI conditions as the
spec states them, but with the MACD condition `MACD > histogram`
(equivalently: the signal line is positive) instead of
`MACD > signal line`; dually for SELL. -/
theorem analyzeClassic_amended (symbol : String) (ts : List Candle) :
    analyzeClassic symbol ts = analyzeClassicSpecAmended symbol ts := by
  unfold analyzeClassic analyzeClassicSpecAmended
  have hlen : ts.length - 1 < 26 ↔ ts.length < 27 := by omega
  have hbuy : macdHistF 12 26 9 (closeOf ts) (ts.length - 1) <
      macdF 12 26 (closeOf ts) (ts.length - 1) ↔
      0 < macdSignalLineF 12 26 9 (closeOf ts) (ts.length - 1) := by
    unfold macdHistF
    constructor <;> intro h <;> linarith
  have hsell : macdF 12 26 (closeOf ts) (ts.length - 1) <
      macdHistF 12 26 9 (closeOf ts) (ts.length - 1) ↔
      macdSignalLineF 12 26 9 (closeOf ts) (ts.length - 1) < 0 := by
    unfold macdHistF
    constructor <;> intro h <;> linarith
  refine if_congr hlen rfl (if_congr ?_ rfl (if_congr ?_ rfl rfl))
  · exact and_congr Iff.rfl (and_congr Iff.rfl (and_congr Iff.rfl hbuy))
  · exact and_congr Iff.rfl (and_congr Iff.rfl (and_congr Iff.rfl hsell))

theorem getA_setA_same (m : List (String × ℚ)) (k : String) (x : ℚ) :
    getA (setA m k x) k = x := by
  induction m with
  | nil => simp [getA, lookupA, setA]
  | cons p rest ih =>
    obtain ⟨k', y⟩ := p
    unfold setA
    by_cases h : k' = k
    · simp [h, getA, lookupA]
    · have hb : (k' == k) = false := beq_eq_false_iff_ne.mpr h
      simpa [getA, lookupA, List.find?, h, hb] using ih

theorem getA_setA_ne (m : List (String × ℚ)) (k k' : String) (x : ℚ)
    (h : ¬ k' = k) : getA (setA m k x) k' = getA m k' := by
  have hb : (k == k') = false := beq_eq_false_iff_ne.mpr (fun hh => h hh.symm)
  induction m with
  | nil => simp [getA, lookupA, setA, List.find?, hb]
  | cons p rest ih =>
    obtain ⟨k₀, y⟩ := p
    unfold setA
    by_cases h₀ : k₀ = k
    · subst h₀
      simp [getA, lookupA, List.find?, hb]
    · by_cases h₁ : k₀ = k'
      · subst h₁
        simp [getA, lookupA, List.find?, h₀]
      · have hb₁ : (k₀ == k') = false := beq_eq_false_iff_ne.mpr h₁
        simpa [getA, lookupA, List.find?, h₀, hb₁] using ih

theorem getA_eraseA (m : List (String × ℚ)) (k : String) :
    getA (eraseA m k) k = 0 := by
  induction m with
  | nil => rfl
  | cons p rest ih =>
    obtain ⟨k₀, y⟩ := p
    unfold eraseA at ih ⊢
    by_cases h : k₀ = k
    · simpa [h] using ih
    · have hb : (k₀ == k) = false := beq_eq_false_iff_ne.mpr h
      simpa [getA, lookupA, List.find?, hb] using ih

/-- C2: the Sharpe ratio the backtest reports is NOT annualized: in
`(mean * √252) / (stdDev * √252)` the two `√252` factors cancel, so the
reported value is `mean/stdDev`, not the spec's `mean/stdDev · √252`.
The zero cases the claim states do hold: the ratio is 0 for fewer than two
returns, and an all-zero returns series yields 0.  Concretely, on the
returns `[0, 2]` the code reports 1 while the spec formula gives 15. -/
theorem sharpeRatio_not_annualized :
    (∀ rets : List ℚ,
      sharpeRatioOf rets =
        if 1 < rets.length ∧ 0 < calculateStdDev rets (calculateMean rets) then
          calculateMean rets / calculateStdDev rets (calculateMean rets)
        else 0) ∧
    sharpeRatioOf [0, 2] = 1 ∧ sharpeRatioSpec [0, 2] = 15 ∧
    sharpeRatioOf [] = 0 ∧ (∀ x : ℚ, sharpeRatioOf [x] = 0) ∧
    (∀ n : ℕ, sharpeRatioOf (List.replicate n 0) = 0) := by
  have hc : sqrtF 252 ≠ 0 := ne_of_gt (sqrtF_pos (by norm_num))
  have hstd : calculateStdDev [0, 2] 1 = 1 := by
    norm_num [calculateStdDev]
    exact sqrtF_two
  refine ⟨?_, ?_, ?_, ?_, ?_, ?_⟩
  · intro rets
    unfold sharpeRatioOf
    by_cases hlen : 1 < rets.length
    · by_cases hsd : 0 < calculateStdDev rets (calculateMean rets)
      · rw [if_pos hlen, if_pos hsd, if_pos ⟨hlen, hsd⟩, mul_div_mul_right _ _ hc]
      · rw [if_pos hlen, if_neg hsd, if_neg (fun h => hsd h.2)]
    · rw [if_neg hlen, if_neg (fun h => hlen h.1)]
  · unfold sharpeRatioOf
    rw [if_pos (by norm_num)]
    norm_num [hstd, calculateMean, div_self hc]
  · unfold sharpeRatioSpec
    rw [if_pos (by norm_num)]
    norm_num [hstd, calculateMean, sqrtF_turn]
  · rfl
  · intro x
    unfold sharpeRatioOf
    rw [if_neg (by norm_num)]
  · intro n
    unfold sharpeRatioOf
    by_cases hn : 1 < n
    · have hmean : calculateMean (List.replicate n 0) = 0 := by
        unfold calculateMean
        rw [if_neg (by simpa using by omega)]
        simp
      have hsd : calculateStdDev (List.replicate n 0) 0 = 0 := by
        unfold calculateStdDev
        rw [if_neg (by simpa using by omega)]
        simp [List.map_replicate, sqrtF_zero]
      rw [if_pos (by simpa using hn)]
      norm_num [hmean, hsd]
    · rw [if_neg (by simpa using hn)]

theorem stepPriced_config (candles : List Candle) (st : LoopState) (i : ℕ) :
    (stepPriced candles st i).config = st.engine.config := rfl

/-! ### Trade-execution lemmas (claims C6, C8, C10) -/

theorem getA_eraseA_ne (m : List (String × ℚ)) (k k' : String) (h : ¬ k' = k) :
    getA (eraseA m k) k' = getA m k' := by
  induction m with
  | nil => rfl
  | cons p rest ih =>
    obtain ⟨k₀, y⟩ := p
    unfold eraseA at ih ⊢
    by_cases h₀ : k₀ = k
    · subst h₀
      have hb : (k₀ == k') = false := beq_eq_false_iff_ne.mpr (fun hh => h hh.symm)
      simpa [getA, lookupA, List.find?, hb] using ih
    · by_cases h₁ : k₀ = k'
      · subst h₁
        simp [getA, lookupA, List.find?, h₀]
      · have hb : (k₀ == k') = false := beq_eq_false_iff_ne.mpr h₁
        simpa [getA, lookupA, List.find?, h₀, hb] using ih

theorem executeTrade_buy_success (be : BacktestEngine) (sym : String) (price : ℚ)
    (t : ℤ) (hp : 0 < price) (hf : 0 ≤ be.config.transactionFee)
    (hc : 0 < be.portfolio.cash) :
    (be.ExecuteTrade sym "BUY" price t).1 = true ∧
    (be.ExecuteTrade sym "BUY" price t).2.portfolio.cash = 0 ∧
    getA (be.ExecuteTrade sym "BUY" price t).2.portfolio.holdings sym =
      getA be.portfolio.holdings sym +
        be.portfolio.cash / (price + price * be.config.transactionFee) ∧
    (be.ExecuteTrade sym "BUY" price t).2.config = be.config ∧
    (be.ExecuteTrade sym "BUY" price t).2.trades.length = be.trades.length + 1 ∧
    (∀ s, ¬ s = sym → getA (be.ExecuteTrade sym "BUY" price t).2.portfolio.holdings s =
      getA be.portfolio.holdings s) := by
  have hcpu : 0 < price + price * be.config.transactionFee := by
    have h1 : 0 ≤ price * be.config.transactionFee := mul_nonneg (le_of_lt hp) hf
    linarith
  have hq : 0 < be.portfolio.cash / (price + price * be.config.transactionFee) :=
    div_pos hc hcpu
  have hcash : be.portfolio.cash -
      (be.portfolio.cash / (price + price * be.config.transactionFee) * price +
        be.portfolio.cash / (price + price * be.config.transactionFee) *
          (price * be.config.transactionFee)) = 0 := by
    have hmul : be.portfolio.cash / (price + price * be.config.transactionFee) *
        (price + price * be.config.transactionFee) = be.portfolio.cash :=
      div_mul_cancel₀ be.portfolio.cash (ne_of_gt hcpu)
    nlinarith [hmul]
  simp only [BacktestEngine.ExecuteTrade, String.reduceEq, reduceIte]
  rw [if_neg (not_le.mpr hq)]
  refine ⟨rfl, hcash, ?_, rfl, by simp, ?_⟩
  · exact getA_setA_same _ _ _
  · intro s hs
    exact getA_setA_ne _ _ _ _ hs

theorem executeTrade_buy_rejected (be : BacktestEngine) (sym : String) (price : ℚ)
    (t : ℤ) (h : be.portfolio.cash / (price + price * be.config.transactionFee) ≤ 0) :
    be.ExecuteTrade sym "BUY" price t = (false, be) := by
  simp only [BacktestEngine.ExecuteTrade, String.reduceEq, reduceIte]
  rw [if_pos h]

theorem executeTrade_sell_success (be : BacktestEngine) (sym : String) (price : ℚ)
    (t : ℤ) (hq0 : 0 < getA be.portfolio.holdings sym) :
    (be.ExecuteTrade sym "SELL" price t).1 = true ∧
    (be.ExecuteTrade sym "SELL" price t).2.portfolio.cash =
      be.portfolio.cash + getA be.portfolio.holdings sym * price -
        getA be.portfolio.holdings sym * (price * be.config.transactionFee) ∧
    getA (be.ExecuteTrade sym "SELL" price t).2.portfolio.holdings sym = 0 ∧
    (be.ExecuteTrade sym "SELL" price t).2.config = be.config ∧
    (be.ExecuteTrade sym "SELL" price t).2.trades.length = be.trades.length + 1 ∧
    (∀ s, ¬ s = sym → getA (be.ExecuteTrade sym "SELL" price t).2.portfolio.holdings s =
      getA be.portfolio.holdings s) := by
  simp only [BacktestEngine.ExecuteTrade, String.reduceEq, reduceIte]
  rw [if_neg (not_le.mpr hq0)]
  refine ⟨rfl, by ring, getA_eraseA _ _, rfl, by simp, ?_⟩
  intro s hs
  exact getA_eraseA_ne _ _ _ hs

theorem executeTrade_sell_rejected (be : BacktestEngine) (sym : String) (price : ℚ)
    (t : ℤ) (h : getA be.portfolio.holdings sym ≤ 0) :
    be.ExecuteTrade sym "SELL" price t = (false, be) := by
  simp only [BacktestEngine.ExecuteTrade, String.reduceEq, reduceIte]
  rw [if_pos h]

theorem executeTrade_other (be : BacktestEngine) (sym tt : String) (price : ℚ)
    (t : ℤ) (h1 : ¬ tt = "BUY") (h2 : ¬ tt = "SELL") :
    be.ExecuteTrade sym tt price t = (false, be) := by
  simp only [BacktestEngine.ExecuteTrade]
  rw [if_neg h1, if_neg h2]

theorem executeTrade_preserves_inv (be : BacktestEngine) (sym : String) (price : ℚ)
    (t : ℤ) (tt : String) (hp : 0 ≤ price) (hf : 0 ≤ be.config.transactionFee)
    (hf1 : be.config.transactionFee ≤ 1) (hinv : EngineInv sym be.portfolio) :
    EngineInv sym (be.ExecuteTrade sym tt price t).2.portfolio := by
  obtain ⟨hc0, hc, hh⟩ := hinv
  by_cases hbuy : tt = "BUY"
  · subst hbuy
    rcases lt_or_eq_of_le hp with hp' | hp'
    · rcases lt_or_eq_of_le hc0 with hcash | hcash
      · obtain ⟨_, h2, h3, _, _, h6⟩ :=
          executeTrade_buy_success be sym price t hp' hf hcash
        refine ⟨le_of_eq h2.symm, fun _ => h2, ?_⟩
        intro s hs
        rw [h6 s hs]
        exact hh s hs
      · have : be.ExecuteTrade sym "BUY" price t = (false, be) := by
          apply executeTrade_buy_rejected
          rw [← hcash]
          simp
        rw [this]
        exact ⟨hc0, hc, hh⟩
    · have : be.ExecuteTrade sym "BUY" price t = (false, be) := by
        apply executeTrade_buy_rejected
        rw [← hp']
        simp
      rw [this]
      exact ⟨hc0, hc, hh⟩
  · by_cases hsell : tt = "SELL"
    · subst hsell
      rcases le_or_lt (getA be.portfolio.holdings sym) 0 with hq | hq
      · rw [executeTrade_sell_rejected be sym price t hq]
        exact ⟨hc0, hc, hh⟩
      · obtain ⟨_, h2, h3, _, _, h6⟩ :=
          executeTrade_sell_success be sym price t hq
        refine ⟨?_, ?_, ?_⟩
        · rw [h2]
          have hter : 0 ≤ getA be.portfolio.holdings sym *
              (price * (1 - be.config.transactionFee)) := by
            apply mul_nonneg (le_of_lt hq)
            apply mul_nonneg hp
            linarith
          nlinarith
        · intro habs
          rw [h3] at habs
          exact absurd habs (by norm_num)
        · intro s hs
          rw [h6 s hs]
          exact hh s hs
    · rw [executeTrade_other be sym tt price t hbuy hsell]
      exact ⟨hc0, hc, hh⟩

theorem executeTrade_config (be : BacktestEngine) (sym tt : String) (price : ℚ)
    (t : ℤ) : (be.ExecuteTrade sym tt price t).2.config = be.config := by
  by_cases h1 : tt = "BUY"
  · subst h1
    simp only [BacktestEngine.ExecuteTrade, String.reduceEq, reduceIte]
    split <;> rfl
  · by_cases h2 : tt = "SELL"
    · subst h2
      simp only [BacktestEngine.ExecuteTrade, String.reduceEq, reduceIte]
      split <;> rfl
    · rw [executeTrade_other be sym tt price t h1 h2]

theorem stepEngine_characterization (useMLAnalyze : Bool) (candles : List Candle)
    (st : LoopState) (i : ℕ) :
    (RunBacktestStep useMLAnalyze candles st i).engine = stepEngine useMLAnalyze candles st i ∧
    (RunBacktestStep useMLAnalyze candles st i).equityCurve.length =
      st.equityCurve.length + 1 := by
  refine ⟨rfl, ?_⟩
  show (st.equityCurve ++ _).length = _
  simp

theorem stepEngine_inv (useMLAnalyze : Bool) (candles : List Candle)
    (st : LoopState) (i : ℕ) (hp : 0 ≤ closeOf candles i)
    (hf : 0 ≤ st.engine.config.transactionFee)
    (hf1 : st.engine.config.transactionFee ≤ 1)
    (hinv : EngineInv st.engine.config.symbol st.engine.portfolio) :
    EngineInv st.engine.config.symbol
      (stepEngine useMLAnalyze candles st i).portfolio ∧
    (stepEngine useMLAnalyze candles st i).config = st.engine.config := by
  have hinv₀ : EngineInv (stepPriced candles st i).config.symbol
      (stepPriced candles st i).portfolio := hinv
  simp only [stepEngine, stepPriced_config]
  by_cases hb : signalAt useMLAnalyze st.engine.config.symbol candles i = "BUY"
  · rw [if_pos hb]
    exact ⟨executeTrade_preserves_inv _ _ _ _ _ hp hf hf1 hinv₀,
      executeTrade_config _ _ _ _ _⟩
  · rw [if_neg hb]
    by_cases hs : signalAt useMLAnalyze st.engine.config.symbol candles i = "SELL"
    · rw [if_pos hs]
      exact ⟨executeTrade_preserves_inv _ _ _ _ _ hp hf hf1 hinv₀,
        executeTrade_config _ _ _ _ _⟩
    · rw [if_neg hs]
      exact ⟨hinv, rfl⟩

theorem foldl_equity_length (useMLAnalyze : Bool) (candles : List Candle) :
    ∀ (l : List ℕ) (st : LoopState),
      ((l.foldl (RunBacktestStep useMLAnalyze candles) st).equityCurve.length =
        st.equityCurve.length + l.length) := by
  intro l
  induction l with
  | nil => intro st; simp
  | cons i rest ih =>
    intro st
    rw [List.foldl_cons, ih, (stepEngine_characterization useMLAnalyze candles st i).2]
    simp [List.length_cons]
    omega

theorem foldl_preserves_inv (useMLAnalyze : Bool) (candles : List Candle)
    (cfg : BacktestConfig) (hp : ∀ i, 0 ≤ closeOf candles i)
    (hf : 0 ≤ cfg.transactionFee) (hf1 : cfg.transactionFee ≤ 1) :
    ∀ (l : List ℕ) (st : LoopState), st.engine.config = cfg →
      EngineInv cfg.symbol st.engine.portfolio →
      EngineInv cfg.symbol
        ((l.foldl (RunBacktestStep useMLAnalyze candles) st).engine).portfolio ∧
      ((l.foldl (RunBacktestStep useMLAnalyze candles) st).engine).config = cfg := by
  intro l
  induction l with
  | nil => intro st hcfg hinv; exact ⟨hinv, hcfg⟩
  | cons i rest ih =>
    intro st hcfg hinv
    rw [List.foldl_cons]
    have hstep := stepEngine_inv useMLAnalyze candles st i (hp i)
      (by rw [hcfg]; exact hf) (by rw [hcfg]; exact hf1) (by rw [hcfg]; exact hinv)
    have heng : (RunBacktestStep useMLAnalyze candles st i).engine =
        stepEngine useMLAnalyze candles st i := rfl
    apply ih
    · rw [heng, hstep.2, hcfg]
    · rw [heng]
      rw [hcfg] at hstep
      exact hstep.1

theorem getA_nil (k : String) : getA [] k = 0 := rfl

/-- C6: Backtest trade execution.  The simulation loop runs from warm-up
index 26 to the last index (one equity sample per step); a BUY with no
existing holding converts all cash at a per-unit cost of
`price + price·feeRate`; a SELL with a holding liquidates the whole
position and deducts `quantity·price·feeRate` as fee; a BUY while a
position is open and a SELL without one are rejected no-ops in every
state satisfying the loop's reachability invariant, and a non-BUY/SELL
signal leaves cash, holdings and the trade log unchanged (only the
`lastPrices` quote map is refreshed each step).  The final conjunct shows
the invariant indeed holds at every state the loop visits. -/
theorem RunBacktest_trade_execution (useMLAnalyze : Bool) (config : BacktestConfig)
    (candles : List Candle) (be : BacktestEngine) (sym : String) (price : ℚ)
    (t : ℤ) :
    (RunBacktest useMLAnalyze config candles).equityCurve.length =
      candles.length - 26 ∧
    (0 < price → 0 ≤ be.config.transactionFee → 0 < be.portfolio.cash →
      getA be.portfolio.holdings sym = 0 →
      (be.ExecuteTrade sym "BUY" price t).1 = true ∧
      (be.ExecuteTrade sym "BUY" price t).2.portfolio.cash = 0 ∧
      getA (be.ExecuteTrade sym "BUY" price t).2.portfolio.holdings sym =
        be.portfolio.cash / (price + price * be.config.transactionFee)) ∧
    (0 < getA be.portfolio.holdings sym →
      (be.ExecuteTrade sym "SELL" price t).1 = true ∧
      (be.ExecuteTrade sym "SELL" price t).2.portfolio.cash =
        be.portfolio.cash + getA be.portfolio.holdings sym * price -
          getA be.portfolio.holdings sym * (price * be.config.transactionFee) ∧
      getA (be.ExecuteTrade sym "SELL" price t).2.portfolio.holdings sym = 0) ∧
    (EngineInv sym be.portfolio → 0 < getA be.portfolio.holdings sym →
      be.ExecuteTrade sym "BUY" price t = (false, be)) ∧
    (getA be.portfolio.holdings sym ≤ 0 →
      be.ExecuteTrade sym "SELL" price t = (false, be)) ∧
    (∀ (st : LoopState) (i : ℕ),
      ¬ signalAt useMLAnalyze st.engine.config.symbol candles i = "BUY" →
      ¬ signalAt useMLAnalyze st.engine.config.symbol candles i = "SELL" →
      (RunBacktestStep useMLAnalyze candles st i).engine.portfolio.cash =
        st.engine.portfolio.cash ∧
      (RunBacktestStep useMLAnalyze candles st i).engine.portfolio.holdings =
        st.engine.portfolio.holdings ∧
      (RunBacktestStep useMLAnalyze candles st i).engine.trades = st.engine.trades) ∧
    ((∀ i, 0 ≤ closeOf candles i) → 0 ≤ config.initialBalance →
      0 ≤ config.transactionFee → config.transactionFee ≤ 1 →
      ∀ n : ℕ, EngineInv config.symbol
        (((List.range' 26 n).foldl (RunBacktestStep useMLAnalyze candles)
          (RunBacktestInit config)).engine).portfolio) := by
  refine ⟨?_, ?_, ?_, ?_, ?_, ?_, ?_⟩
  · show ((List.range' 26 (candles.length - 26)).foldl
      (RunBacktestStep useMLAnalyze candles) (RunBacktestInit config)).equityCurve.length = _
    rw [foldl_equity_length]
    simp [RunBacktestInit]
  · intro hp hf hc hnil
    obtain ⟨h1, h2, h3, _, _, _⟩ := executeTrade_buy_success be sym price t hp hf hc
    rw [hnil, zero_add] at h3
    exact ⟨h1, h2, h3⟩
  · intro hq
    obtain ⟨h1, h2, h3, _, _, _⟩ := executeTrade_sell_success be sym price t hq
    exact ⟨h1, h2, h3⟩
  · intro hinv hq
    apply executeTrade_buy_rejected
    rw [hinv.2.1 hq]
    simp
  · intro hq
    exact executeTrade_sell_rejected be sym price t hq
  · intro st i hb hs
    have heng : (RunBacktestStep useMLAnalyze candles st i).engine =
        stepEngine useMLAnalyze candles st i := rfl
    have hbe : stepEngine useMLAnalyze candles st i = stepPriced candles st i := by
      simp only [stepEngine, stepPriced_config]
      rw [if_neg hb, if_neg hs]
    rw [heng, hbe]
    exact ⟨rfl, rfl, rfl⟩
  · intro hp hinit hf hf1 n
    refine (foldl_preserves_inv useMLAnalyze candles config hp hf hf1 _ _ rfl ?_).1
    refine ⟨hinit, ?_, ?_⟩
    · intro habs
      simp [RunBacktestInit, NewBacktestEngine, getA, lookupA] at habs
    · intro s _
      simp [RunBacktestInit, NewBacktestEngine, getA, lookupA]

/-- Witness for C6 at a concrete input. -/
theorem RunBacktest_trade_execution_witness :
    (0 : ℚ) < 10 ∧ (0 : ℚ) ≤ engEx.config.transactionFee ∧
    (0 : ℚ) < engEx.portfolio.cash ∧ getA engEx.portfolio.holdings "BTCUSDT" = 0 ∧
    ((engEx.ExecuteTrade "BTCUSDT" "BUY" 10 0).1 = true ∧
      (engEx.ExecuteTrade "BTCUSDT" "BUY" 10 0).2.portfolio.cash = 0 ∧
      getA (engEx.ExecuteTrade "BTCUSDT" "BUY" 10 0).2.portfolio.holdings "BTCUSDT" =
        engEx.portfolio.cash / (10 + 10 * engEx.config.transactionFee)) :=
  ⟨by norm_num, by norm_num [engEx, NewBacktestEngine],
    by norm_num [engEx, NewBacktestEngine], rfl,
    (RunBacktest_trade_execution false ⟨"BTCUSDT", 100, 1/100⟩ [] engEx "BTCUSDT"
      10 0).2.1 (by norm_num) (by norm_num [engEx, NewBacktestEngine])
      (by norm_num [engEx, NewBacktestEngine]) rfl⟩

/-- C8: a SELL with no (or a non-positive) position for the symbol is
rejected and is a pure no-op: the call returns `false` and the engine —
cash, holdings and the trade log — is exactly the engine before the call. -/
theorem sell_without_holdings_noop (be : BacktestEngine) (sym : String)
    (price : ℚ) (t : ℤ) (h : getA be.portfolio.holdings sym ≤ 0) :
    be.ExecuteTrade sym "SELL" price t = (false, be) :=
  executeTrade_sell_rejected be sym price t h

/-- Witness for C8 at a concrete input: an empty holdings map. -/
theorem sell_without_holdings_noop_witness :
    getA engEx.portfolio.holdings "BTCUSDT" ≤ 0 ∧
    engEx.ExecuteTrade "BTCUSDT" "SELL" 10 0 = (false, engEx) :=
  ⟨le_of_eq rfl, sell_without_holdings_noop engEx "BTCUSDT" 10 0 (le_of_eq rfl)⟩

/-- C10: under exact rational arithmetic a successful BUY at a positive
price spends the cash balance exactly — the post-BUY cash is 0 — and any
immediately following BUY is rejected (the computed maximum quantity is
`0 / costPerUnit = 0 ≤ 0`), at any second price: the engine relies on
this, not on an explicit existing-holding check, to prevent pyramiding. -/
theorem buy_allin_prevents_pyramiding (be : BacktestEngine) (sym : String)
    (price price' : ℚ) (t t' : ℤ) (hp : 0 < price)
    (hf : 0 ≤ be.config.transactionFee) (hc : 0 < be.portfolio.cash) :
    (be.ExecuteTrade sym "BUY" price t).1 = true ∧
    (be.ExecuteTrade sym "BUY" price t).2.portfolio.cash = 0 ∧
    (be.ExecuteTrade sym "BUY" price t).2.ExecuteTrade sym "BUY" price' t' =
      (false, (be.ExecuteTrade sym "BUY" price t).2) := by
  obtain ⟨h1, h2, _, _, _, _⟩ := executeTrade_buy_success be sym price t hp hf hc
  refine ⟨h1, h2, ?_⟩
  apply executeTrade_buy_rejected
  rw [h2]
  simp

/-- Witness for C10 at a concrete input. -/
theorem buy_allin_prevents_pyramiding_witness :
    (0 : ℚ) < 10 ∧ (0 : ℚ) ≤ engEx.config.transactionFee ∧
    (0 : ℚ) < engEx.portfolio.cash ∧
    ((engEx.ExecuteTrade "BTCUSDT" "BUY" 10 0).1 = true ∧
      (engEx.ExecuteTrade "BTCUSDT" "BUY" 10 0).2.portfolio.cash = 0 ∧
      (engEx.ExecuteTrade "BTCUSDT" "BUY" 10 0).2.ExecuteTrade "BTCUSDT" "BUY" 7 1 =
        (false, (engEx.ExecuteTrade "BTCUSDT" "BUY" 10 0).2)) :=
  ⟨by norm_num, by norm_num [engEx, NewBacktestEngine],
    by norm_num [engEx, NewBacktestEngine],
    buy_allin_prevents_pyramiding engEx "BTCUSDT" 10 7 0 1 (by norm_num)
      (by norm_num [engEx, NewBacktestEngine]) (by norm_num [engEx, NewBacktestEngine])⟩

/-! ### Claims C7, C3, C4, C9 -/

/-- C7: training atomicity on insufficient data.  When the buffer holds
fewer samples than the configured minimum, `TrainModel` fails with the
InsufficientData error and the model state — weights, feature statistics,
training count, last-training time, performance — is exactly the state
before the call. -/
theorem trainModel_insufficient_data_atomic (ml : MLModel) (now : ℤ)
    (h : ml.features.length < ml.config.minTrainingPeriod) :
    ml.TrainModel now =
      (ml, some (.insufficientData ml.features.length ml.config.minTrainingPeriod)) := by
  unfold MLModel.TrainModel
  rw [if_pos h]

/-- Witness for C7 at Scenario B's numbers. -/
theorem trainModel_insufficient_data_atomic_witness :
    mlEx.features.length < mlEx.config.minTrainingPeriod ∧
    mlEx.TrainModel 0 = (mlEx, some (.insufficientData 50 100)) :=
  ⟨by simp [mlEx, NewMLModel],
    by simpa [mlEx, NewMLModel] using
      trainModel_insufficient_data_atomic mlEx 0 (by simp [mlEx, NewMLModel])⟩

/-- Normalization with no stored statistics yields 0 for every feature. -/
theorem normalize_no_stats (ml : MLModel) (hs : ml.featureStats = [])
    (name : String) (v : ℚ) : ml.normalize name v = 0 := by
  unfold MLModel.normalize lookupS
  rw [hs]
  rfl

theorem mlBuy_predict_buy (fv : TradingFeatures) :
    (mlBuy.Predict fv).direction = "BUY" := by
  have hw : ¬ mlBuy.trainedWeights.length = 0 := by simp [mlBuy]
  have hnorm : (mlBuy.NormalizeFeatures fv).1 = mlBuy ∧
      (mlBuy.NormalizeFeatures fv).2.PriceChange1 = 0 ∧
      (mlBuy.NormalizeFeatures fv).2.PriceChange5 = 0 ∧
      (mlBuy.NormalizeFeatures fv).2.PriceChange10 = 0 ∧
      (mlBuy.NormalizeFeatures fv).2.RSI = 0 ∧
      (mlBuy.NormalizeFeatures fv).2.EMASpread = 0 ∧
      (mlBuy.NormalizeFeatures fv).2.MACDHistogram = 0 ∧
      (mlBuy.NormalizeFeatures fv).2.ATR = 0 ∧
      (mlBuy.NormalizeFeatures fv).2.BollingerPosition = 0 ∧
      (mlBuy.NormalizeFeatures fv).2.VolumeRatio = 0 := by
    unfold MLModel.NormalizeFeatures
    have hstats : mlBuy.featureStats = [] := rfl
    have hcalc : mlBuy.calculateFeatureStats = mlBuy := by
      unfold MLModel.calculateFeatureStats
      rw [if_pos (by simp [mlBuy, mlP, NewMLModel])]
    simp [hstats, hcalc, normalize_no_stats mlBuy hstats]
  have hn1 : (mlBuy.NormalizeFeatures fv).1 = mlBuy := hnorm.1
  have hpred : mlBuy.predictValue (mlBuy.NormalizeFeatures fv).2 = 1 := by
    obtain ⟨h1, h2, h3, h4, h5, h6, h7, h8, h9, h10⟩ := hnorm
    unfold MLModel.predictValue
    rw [h2, h3, h4, h5, h6, h7, h8, h9, h10]
    norm_num [mlBuy, getA, lookupA, List.find?]
  unfold MLModel.Predict
  rw [if_neg hw]
  simp only [hn1, hpred]
  rw [if_pos (by norm_num)]

/-- Counterexample to C3 as stated: a predictor state on which `Predict`
answers BUY for the feature vector extracted at the current index, while
the model-based analysis path (`analyzeML`, and `analyze` with the ML flag
set) still answers HOLD — it never consults the predictor. -/
theorem analyzeML_not_delegating_counterexample :
    ((mlBuy.ExtractFeatures (constSeries 5 30) 29 ⟨0, 0⟩).map
      (fun fv => (mlBuy.Predict fv).direction)).getD "" = "BUY" ∧
    (mlBuy.ExtractFeatures (constSeries 5 30) 29 ⟨0, 0⟩).isSome = true ∧
    analyzeML "BTCUSDT" (constSeries 5 30) = "HOLD" ∧
    analyze true "BTCUSDT" (constSeries 5 30) = "HOLD" := by
  have hsome : ∃ fv, mlBuy.ExtractFeatures (constSeries 5 30) 29 ⟨0, 0⟩ = some fv := by
    unfold MLModel.ExtractFeatures
    rw [if_neg (by simp [mlBuy, mlP, NewMLModel])]
    exact ⟨_, rfl⟩
  obtain ⟨fv, hfv⟩ := hsome
  rw [hfv]
  exact ⟨by simp [mlBuy_predict_buy], by simp, rfl, rfl⟩

/-- C3 amended: in model-based strategy mode the analysis dispatch is a
placeholder: `analyzeML` (and hence `analyze` with the ML flag set)
returns HOLD for every series, without consulting the predictor. -/
theorem analyzeML_returns_hold (symbol : String) (ts : List Candle) :
    analyzeML symbol ts = "HOLD" ∧ analyze true symbol ts = "HOLD" :=
  ⟨rfl, rfl⟩

/-! ### C4: the time features come from the wall clock, not the bar -/

theorem closeOf_retime (ts : List Candle) (r : ℤ) :
    closeOf (ts.map (fun c => { c with periodStart := r })) = closeOf ts := by
  funext i
  unfold closeOf
  cases h : ts[i]? <;> simp [List.getD, List.getElem?_map, h]

theorem highOf_retime (ts : List Candle) (r : ℤ) :
    highOf (ts.map (fun c => { c with periodStart := r })) = highOf ts := by
  funext i
  unfold highOf
  cases h : ts[i]? <;> simp [List.getD, List.getElem?_map, h]

theorem lowOf_retime (ts : List Candle) (r : ℤ) :
    lowOf (ts.map (fun c => { c with periodStart := r })) = lowOf ts := by
  funext i
  unfold lowOf
  cases h : ts[i]? <;> simp [List.getD, List.getElem?_map, h]

theorem volOf_retime (ts : List Candle) (r : ℤ) :
    volOf (ts.map (fun c => { c with periodStart := r })) = volOf ts := by
  funext i
  unfold volOf
  cases h : ts[i]? <;> simp [List.getD, List.getElem?_map, h]

theorem openPrice_retime (ts : List Candle) (r : ℤ) (i : ℕ) :
    ((ts.map (fun c => { c with periodStart := r })).getD i cdef).openPrice =
      (ts.getD i cdef).openPrice := by
  cases h : ts[i]? <;> simp [List.getD, List.getElem?_map, h]

theorem calculateATR_retime (ml : MLModel) (ts : List Candle) (r : ℤ) (i n : ℕ) :
    ml.calculateATR (ts.map (fun c => { c with periodStart := r })) i n =
      ml.calculateATR ts i n := by
  unfold MLModel.calculateATR
  rw [highOf_retime ts r, lowOf_retime ts r, closeOf_retime ts r]

theorem extract_map_hour (ml : MLModel) (ts : List Candle) (i : ℕ) (now : WallClock) :
    (ml.ExtractFeatures ts i now).map (fun f => f.HourOfDay) =
      if i < ml.config.featureWindow then none
      else some (((now.hour : ℕ) : ℚ) / 24) := by
  by_cases hg : i < ml.config.featureWindow
  · unfold MLModel.ExtractFeatures
    rw [if_pos hg, if_pos hg]
    rfl
  · unfold MLModel.ExtractFeatures
    rw [if_neg hg, if_neg hg]
    rfl

theorem extract_map_weekday (ml : MLModel) (ts : List Candle) (i : ℕ) (now : WallClock) :
    (ml.ExtractFeatures ts i now).map (fun f => f.DayOfWeek) =
      if i < ml.config.featureWindow then none
      else some (((now.weekday : ℕ) : ℚ) / 7) := by
  by_cases hg : i < ml.config.featureWindow
  · unfold MLModel.ExtractFeatures
    rw [if_pos hg, if_pos hg]
    rfl
  · unfold MLModel.ExtractFeatures
    rw [if_neg hg, if_neg hg]
    rfl

/-- Counterexample to C4 as stated: the same model, series and index
extracted at two different wall-clock instants (hour 0 versus hour 1)
produce different FeatureVectors — the extractor reads `time.Now()`, so
"calling `extract` twice at the same index on the same series" is not
idempotent across an hour boundary, and the time fields are not derived
from the bar's timestamp. -/
theorem extract_not_idempotent_counterexample :
    mlP.ExtractFeatures (constSeries 5 30) 29 ⟨0, 0⟩ ≠
      mlP.ExtractFeatures (constSeries 5 30) 29 ⟨1, 0⟩ := by
  intro h
  have e1 := extract_map_hour mlP (constSeries 5 30) 29 ⟨0, 0⟩
  have e2 := extract_map_hour mlP (constSeries 5 30) 29 ⟨1, 0⟩
  rw [h, e2] at e1
  rw [if_neg (by simp [mlP, NewMLModel]), if_neg (by simp [mlP, NewMLModel])] at e1
  have := Option.some.inj e1
  norm_num at this

/-- C4 amended: feature extraction is deterministic given the wall-clock
reading: the time-of-day and day-of-week fields equal `Hour()/24` and
`Weekday()/7` of the wall clock passed to the call — both in `[0, 1)` —
and are not derived from the bar's timestamp: replacing every bar's
`periodStart` by an arbitrary value leaves the extracted vector (indeed
the whole extraction result) unchanged. -/
theorem extract_deterministic_given_wallclock (ml : MLModel) (ts : List Candle)
    (i : ℕ) (now : WallClock) :
    ((ml.ExtractFeatures ts i now).map (fun f => f.HourOfDay) =
      if i < ml.config.featureWindow then none
      else some (((now.hour : ℕ) : ℚ) / 24)) ∧
    ((ml.ExtractFeatures ts i now).map (fun f => f.DayOfWeek) =
      if i < ml.config.featureWindow then none
      else some (((now.weekday : ℕ) : ℚ) / 7)) ∧
    0 ≤ ((now.hour : ℕ) : ℚ) / 24 ∧ ((now.hour : ℕ) : ℚ) / 24 < 1 ∧
    0 ≤ ((now.weekday : ℕ) : ℚ) / 7 ∧ ((now.weekday : ℕ) : ℚ) / 7 < 1 ∧
    ∀ r : ℤ, ml.ExtractFeatures (ts.map (fun c => { c with periodStart := r })) i now =
      ml.ExtractFeatures ts i now := by
  have hhour : ((now.hour : ℕ) : ℚ) < 24 := by exact_mod_cast now.hour.isLt
  have hwd : ((now.weekday : ℕ) : ℚ) < 7 := by exact_mod_cast now.weekday.isLt
  refine ⟨extract_map_hour ml ts i now, extract_map_weekday ml ts i now,
    by positivity, ?_, by positivity, ?_, ?_⟩
  · rw [div_lt_one (by norm_num)]
    exact hhour
  · rw [div_lt_one (by norm_num)]
    exact hwd
  · intro r
    unfold MLModel.ExtractFeatures
    rw [calculateATR_retime ml ts r i 14, closeOf_retime ts r, highOf_retime ts r,
      lowOf_retime ts r, volOf_retime ts r, openPrice_retime ts r i]

/-! ### C9: Bollinger guards on a flat series -/

theorem closeOf_constSeries (p : ℚ) (n j : ℕ) :
    closeOf (constSeries p n) j = if j < n then p else 0 := by
  unfold closeOf constSeries constCandle
  by_cases h : j < n
  · simp [List.getD, List.getElem?_replicate, h]
  · simp [List.getD, List.getElem?_replicate, h, cdef]

theorem sum_map_const (n : ℕ) (p : ℚ) :
    ((List.range n).map (fun _ => p)).sum = (n : ℚ) * p := by
  induction n with
  | zero => simp
  | succ k ih =>
    rw [List.range_succ, List.map_append, List.sum_append, ih]
    push_cast
    simp
    ring

theorem sma_const (ml : MLModel) (p : ℚ) (i : ℕ) (h19 : ¬ i < 20 - 1) (h30 : i < 30) :
    ml.calculateSMA (closeOf (constSeries p 30)) i 20 = p := by
  unfold MLModel.calculateSMA
  rw [if_neg h19]
  have hmap : (List.range 20).map (fun j => closeOf (constSeries p 30) (i + 1 - 20 + j)) =
      (List.range 20).map (fun _ => p) := by
    apply List.map_congr_left
    intro j hj
    have hj' : j < 20 := List.mem_range.mp hj
    rw [closeOf_constSeries, if_pos (by omega)]
  rw [hmap, sum_map_const]
  push_cast
  ring_nf

theorem stddev_const (ml : MLModel) (p : ℚ) (i : ℕ) (h30 : i < 30) :
    ml.calculateStdDev (closeOf (constSeries p 30)) i 20 = 0 := by
  unfold MLModel.calculateStdDev
  by_cases h19 : i < 20 - 1
  · rw [if_pos h19]
  · rw [if_neg h19]
    have hsma := sma_const ml p i h19 h30
    have hzero : ((List.range 20).map
        (fun j => (closeOf (constSeries p 30) (i + 1 - 20 + j) -
          ml.calculateSMA (closeOf (constSeries p 30)) i 20) *
          (closeOf (constSeries p 30) (i + 1 - 20 + j) -
            ml.calculateSMA (closeOf (constSeries p 30)) i 20))).sum = 0 := by
      apply List.sum_eq_zero
      intro x hx
      simp only [List.mem_map, List.mem_range] at hx
      obtain ⟨j, hj, hxe⟩ := hx
      rw [closeOf_constSeries, if_pos (by omega), hsma] at hxe
      simp at hxe
      exact hxe.symm
    simp only [hzero]
    norm_num [sqrtF_zero]

theorem sanitize_width (ml : MLModel) (f : TradingFeatures) :
    (ml.sanitizeFeatures f).BollingerWidth = f.BollingerWidth := rfl

theorem sanitize_position (ml : MLModel) (f : TradingFeatures) :
    (ml.sanitizeFeatures f).BollingerPosition = f.BollingerPosition := rfl

/-- C9: on a series of 30 identical-price bars the extracted
BollingerWidth and BollingerPosition are 0 at every valid index — the
zero-bandwidth and zero-mean guards take the zero branch, so the division
never happens (in this exact model division is total, so no NaN/Infinity
can arise in any case; the content is that the guarded values are 0). -/
theorem bollinger_flat_series_zero (p : ℚ) (ml : MLModel) (i : ℕ) (now : WallClock)
    (h : i < 30) :
    ((ml.ExtractFeatures (constSeries p 30) i now).map
      (fun f => f.BollingerWidth)).getD 0 = 0 ∧
    ((ml.ExtractFeatures (constSeries p 30) i now).map
      (fun f => f.BollingerPosition)).getD 0 = 0 ∧
    (ml.config.featureWindow ≤ i →
      (ml.ExtractFeatures (constSeries p 30) i now).isSome = true) := by
  by_cases hg : i < ml.config.featureWindow
  · unfold MLModel.ExtractFeatures
    rw [if_pos hg]
    exact ⟨rfl, rfl, fun hle => absurd hle (by omega)⟩
  · have hstd := stddev_const ml p i h
    unfold MLModel.ExtractFeatures
    rw [if_neg hg]
    refine ⟨?_, ?_, fun _ => rfl⟩
    · simp only [Option.map_some', Option.getD_some, sanitize_width]
      rw [hstd]
      norm_num
    · simp only [Option.map_some', Option.getD_some, sanitize_position]
      rw [hstd]
      norm_num

/-- Witness for C9 at a concrete input. -/
theorem bollinger_flat_series_zero_witness :
    25 < 30 ∧
    (((mlP.ExtractFeatures (constSeries 5 30) 25 ⟨0, 0⟩).map
        (fun f => f.BollingerWidth)).getD 0 = 0 ∧
      ((mlP.ExtractFeatures (constSeries 5 30) 25 ⟨0, 0⟩).map
        (fun f => f.BollingerPosition)).getD 0 = 0 ∧
      (mlP.config.featureWindow ≤ 25 →
        (mlP.ExtractFeatures (constSeries 5 30) 25 ⟨0, 0⟩).isSome = true)) :=
  ⟨by decide, bollinger_flat_series_zero 5 mlP 25 ⟨0, 0⟩ (by decide)⟩

end GoTrading
